import Mathlib

/-!
Shallow embedding of the `shrl` clinical-data ingestion pipeline.

The definitions below are translated from the repository's Python sources:

* `shrl/field.py`  — typed field parsers (Bool/Date/Number/String/Enum/FK);
* `shrl/case.py`   — contiguity-based grouping of loaded rows into cases;
* `shrl/transform/util.py`    — the regimen and sequence registries;
* `shrl/transform/convert.py` — per-case entity construction;
* `shrl/transform/align.py`   — alignment profile selection.

Modelling conventions:

* Python exceptions become `Except` results; an uncaught `IndexError`,
  `KeyError`, `StopIteration` or `AssertionError` is represented by the
  corresponding constructor of `CaseError`.
* Python dicts become association lists in insertion order; updating an
  existing key keeps its position, as CPython dicts do.
* `uuid.uuid4()` is modelled by a fresh-identifier supply (`UuidGen`): each
  draw returns a value distinct from all previous draws, which is the
  property the code relies on.
* Python `str.strip` / `str.lower` are modelled on the ASCII fragment
  (`Char.isWhitespace` / `Char.toLower`); every string the program
  manipulates in the claims below is ASCII.
* Python `int(...)` / `float(...)` on strings are modelled by executable
  recognizers; floats are exact decimal values plus `inf`/`nan` (IEEE
  rounding is not modelled), and `nan` is not equal to itself, as in
  Python.
* Python `hash` of a `(name, sequence)` pair of strings is modelled by the
  pair itself, i.e. the hash is assumed collision-free.
-/

namespace Shrl

deriving instance DecidableEq for Except

/-- Source location attached to every loaded cell (`shrl/exceptions.py`,
`SourceLocation`). -/
structure SourceLocation where
  filename : String
  line : Nat
deriving DecidableEq, Repr

/-- A `FieldParsingError` carries a location and a message
(`shrl/exceptions.py`, `BaseParsingException`). -/
structure FieldParsingError where
  loc : SourceLocation
  msg : String
deriving DecidableEq, Repr

/-- Python `str.strip()` restricted to ASCII whitespace: drop whitespace
characters from both ends. -/
def pyStrip (s : String) : String :=
  ⟨((s.data.dropWhile Char.isWhitespace).reverse.dropWhile Char.isWhitespace).reverse⟩

/-- Python `str.lower()` restricted to ASCII letters. -/
def pyLower (s : String) : String :=
  ⟨s.data.map Char.toLower⟩

/-- Value of a decimal digit character. -/
def digitVal (c : Char) : Nat := c.toNat - 48

/-- Natural number denoted by a list of decimal digit characters. -/
def digitsToNat (l : List Char) : Nat :=
  l.foldl (fun n c => n * 10 + digitVal c) 0

/-- Split a leading sign character off a character list, returning
(isNegative, rest). -/
def splitSign : List Char → Bool × List Char
  | '-' :: rest => (true, rest)
  | '+' :: rest => (false, rest)
  | l => (false, l)

/-- Python `int(src)` on a string: optional surrounding whitespace, an
optional sign, then one or more decimal digits.  (Underscore separators and
non-ASCII digits are not modelled; no input in this development uses them.) -/
def pyParseInt (s : String) : Option Int :=
  let t := (pyStrip s).data
  let (neg, ds) := splitSign t
  if ds ≠ [] ∧ ds.all Char.isDigit then
    some (if neg then -(digitsToNat ds : Int) else (digitsToNat ds : Int))
  else none

/-- An exact decimal number `m × 10^(-k)` (used to give Python float
literals an exact, computable meaning; IEEE rounding is not modelled). -/
structure Decimal where
  m : Int
  k : Nat
deriving DecidableEq, Repr

/-- Numeric equality of two exact decimals (cross-multiplied). -/
def Decimal.eqb (a b : Decimal) : Bool :=
  a.m * (10 : Int) ^ b.k = b.m * (10 : Int) ^ a.k

/-- Negation of an exact decimal. -/
def Decimal.neg (a : Decimal) : Decimal := ⟨-a.m, a.k⟩

/-- Scale an exact decimal by a signed power of ten. -/
def Decimal.scaleByPow10 (a : Decimal) (e : Int) : Decimal :=
  if 0 ≤ e then ⟨a.m * (10 : Int) ^ e.toNat, a.k⟩ else ⟨a.m, a.k + (-e).toNat⟩

/-- Result of Python `float(src)`: an exact finite decimal value, a signed
infinity, or `nan`. -/
inductive PyFloat where
  | finite : Decimal → PyFloat
  | inf : Bool → PyFloat
  | nan : PyFloat
deriving DecidableEq, Repr

/-- Parse the decimal mantissa `digits [. digits]` (at least one digit in
total), returning its exact value. -/
def parseMantissa (l : List Char) : Option Decimal :=
  match l.span (fun c => c ≠ '.') with
  | (intPart, []) =>
    if intPart ≠ [] ∧ intPart.all Char.isDigit then
      some ⟨(digitsToNat intPart : Int), 0⟩
    else none
  | (intPart, _dot :: fracPart) =>
    if (intPart ≠ [] ∨ fracPart ≠ []) ∧ intPart.all Char.isDigit ∧
        fracPart.all Char.isDigit then
      some ⟨(digitsToNat intPart * 10 ^ fracPart.length + digitsToNat fracPart : Nat), fracPart.length⟩
    else none

/-- Python `float(src)` on a string: optional surrounding whitespace and
sign, then `inf`/`infinity`/`nan` (case-insensitive) or a decimal mantissa
with an optional exponent part. -/
def pyParseFloat (s : String) : Option PyFloat :=
  let t := (pyStrip s).data
  let (neg, body) := splitSign t
  let lowered := body.map Char.toLower
  if lowered = "inf".data ∨ lowered = "infinity".data then some (.inf neg)
  else if lowered = "nan".data then some .nan
  else
    match body.span (fun c => c ≠ 'e' ∧ c ≠ 'E') with
    | (mant, []) =>
      (parseMantissa mant).map (fun q => .finite (if neg then q.neg else q))
    | (mant, _e :: expPart) =>
      let (eneg, eds) := splitSign expPart
      if eds ≠ [] ∧ eds.all Char.isDigit then
        (parseMantissa mant).map (fun q =>
          let e : Int := if eneg then -(digitsToNat eds : Int) else (digitsToNat eds : Int)
          .finite ((if neg then q.neg else q).scaleByPow10 e))
      else none

/-- A typed value produced by a field parser (`shrl/field.py`, `FieldType`).
Enum members carry the enum's name and the member's name; dates carry
year/month/day. -/
inductive FieldValue where
  | str : String → FieldValue
  | bool : Bool → FieldValue
  | int : Int → FieldValue
  | float : PyFloat → FieldValue
  | enumMember : String → String → FieldValue
  | date : Nat → Nat → Nat → FieldValue
deriving DecidableEq, Repr

/-- Numeric view of a value: Python treats `bool` as a numeric type
(`True == 1`), and compares `int` and `float` by value. -/
def pyNum : FieldValue → Option PyFloat
  | .bool b => some (.finite ⟨if b then 1 else 0, 0⟩)
  | .int n => some (.finite ⟨n, 0⟩)
  | .float f => some f
  | _ => none

/-- Python `==` on floats: `nan` is not equal to anything, including
itself. -/
def PyFloat.pyEq : PyFloat → PyFloat → Bool
  | .finite a, .finite b => a.eqb b
  | .inf a, .inf b => a = b
  | _, _ => false

/-- Python `==` on parsed field values: numeric values compare numerically
(including bools), other kinds compare structurally within their kind. -/
def FieldValue.pyEq (a b : FieldValue) : Bool :=
  match pyNum a, pyNum b with
  | some x, some y => x.pyEq y
  | _, _ =>
    match a, b with
    | .str s, .str t => s = t
    | .enumMember e m, .enumMember e2 m2 => e = e2 ∧ m = m2
    | .date y m d, .date y2 m2 d2 => y = y2 ∧ m = m2 ∧ d = d2
    | _, _ => false

/-- Python `==` between two optional values (`None == None` is `True`,
`None` is not equal to any parsed value). -/
def optPyEq : Option FieldValue → Option FieldValue → Bool
  | none, none => true
  | some a, some b => a.pyEq b
  | _, _ => false

/-- Field parser variants (`shrl/field.py`): each carries its name and
`required` flag; enums carry their option list, foreign keys their target
label. -/
inductive Field where
  | bool : String → Bool → Field
  | date : String → Bool → Field
  | number : String → Bool → Field
  | str : String → Bool → Field
  | enum : String → List String → Bool → Field
  | foreignKey : String → String → Bool → Field
deriving DecidableEq, Repr

/-- Name of a field parser. -/
def Field.name : Field → String
  | .bool n _ => n
  | .date n _ => n
  | .number n _ => n
  | .str n _ => n
  | .enum n _ _ => n
  | .foreignKey n _ _ => n

/-- Required flag of a field parser. -/
def Field.required : Field → Bool
  | .bool _ r => r
  | .date _ r => r
  | .number _ r => r
  | .str _ r => r
  | .enum _ _ r => r
  | .foreignKey _ _ r => r

/-- `BaseField.handle_none` (`shrl/field.py` lines 50-58): an absent value
is `None` for an optional field and a located "Missing required field"
error for a required one. -/
def Field.handle_none (f : Field) (loc : SourceLocation) :
    Except FieldParsingError (Option FieldValue) :=
  if !f.required then .ok none
  else .error ⟨loc, "Missing required field: " ++ f.name⟩

/-- `BoolField.trues`. -/
def boolTrues : List String := ["1", "true", "y", "t", "yes"]

/-- `BoolField.falses`. -/
def boolFalses : List String := ["0", "false", "n", "f", "no"]

/-- `BoolField.nones`. -/
def boolNones : List String := ["none", "null", ""]

/-- Number of days in a month, with the Gregorian leap rule (used by the
model of `strptime(src, "%Y-%m-%d")`). -/
def daysInMonth (year month : Nat) : Nat :=
  if month = 2 then
    if year % 4 = 0 ∧ (year % 100 ≠ 0 ∨ year % 400 = 0) then 29 else 28
  else if month ∈ [4, 6, 9, 11] then 30
  else 31

/-- Model of `datetime.datetime.strptime(src, "%Y-%m-%d")`: three dash
separated decimal components (year up to four digits, month and day up to
two), with calendar validation. -/
def pyParseDate (s : String) : Option (Nat × Nat × Nat) :=
  match s.data.span (fun c => c ≠ '-') with
  | (_, []) => none
  | (ys, _dash1 :: rest1) =>
    match rest1.span (fun c => c ≠ '-') with
    | (_, []) => none
    | (ms, _dash2 :: ds) =>
      if ds.all (fun c => c ≠ '-') ∧
          ys ≠ [] ∧ ys.length ≤ 4 ∧ ys.all Char.isDigit ∧
          ms ≠ [] ∧ ms.length ≤ 2 ∧ ms.all Char.isDigit ∧
          ds ≠ [] ∧ ds.length ≤ 2 ∧ ds.all Char.isDigit then
        let y := digitsToNat ys
        let m := digitsToNat ms
        let d := digitsToNat ds
        if 1 ≤ m ∧ m ≤ 12 ∧ 1 ≤ d ∧ d ≤ daysInMonth y m ∧ 1 ≤ y then
          some (y, m, d)
        else none
      else none

/-- `parse_type` of each concrete field class (`shrl/field.py`): the
type-specific parsing rule, returning a value or a `FieldParsingError`.
Error messages reproduce the head of the Python messages.  For `BoolField`
the inner "Expected one of ..." error is re-raised wrapped as an
"Unexpected exception" error by the surrounding handler, as in the source. -/
def Field.parse_type (f : Field) (src : String) (loc : SourceLocation) :
    Except FieldParsingError (Option FieldValue) :=
  match f with
  | .bool name _ =>
    let normed := pyStrip (pyLower src)
    if boolFalses.contains normed then .ok (some (.bool false))
    else if boolTrues.contains normed then .ok (some (.bool true))
    else if boolNones.contains normed then .ok none
    else .error ⟨loc, "Unexpected exception while parsing " ++ name ++
      ": Expected one of 'true', 'false', '0', or '1'; got '" ++ src ++ "'"⟩
  | .date _ _ =>
    match pyParseDate src with
    | some (y, m, d) => .ok (some (.date y m d))
    | none => .error ⟨loc, "Expected a date in the format YYYY-MM-DD; got '" ++ src ++ "' instead"⟩
  | .number _ _ =>
    match pyParseInt src with
    | some n => .ok (some (.int n))
    | none =>
      match pyParseFloat src with
      | some q => .ok (some (.float q))
      | none => .error ⟨loc, "Unexpected error parsing numeric field: '" ++ src ++ "'"⟩
  | .str _ r | .foreignKey _ _ r =>
    let parsed := pyStrip src
    if parsed = "" then
      if r then .error ⟨loc, "Unexpected blank field"⟩ else .ok none
    else .ok (some (.str parsed))
  | .enum name options _ =>
    let normed := pyStrip (pyLower src)
    if options.contains normed then .ok (some (.enumMember name normed))
    else .error ⟨loc, "Unexpected value '" ++ src ++ "' for " ++ name⟩

/-- `BaseField.parse` (`shrl/field.py` lines 60-72): absent input goes to
`handle_none`; a `parse_type` failure on a string that is blank after
stripping is retried as an absent value; any other failure is re-raised. -/
def Field.parse (f : Field) (src : Option String) (loc : SourceLocation) :
    Except FieldParsingError (Option FieldValue) :=
  match src with
  | none => f.handle_none loc
  | some s =>
    match f.parse_type s loc with
    | .ok v => .ok v
    | .error e => if pyStrip s = "" then f.handle_none loc else .error e

/-- A loaded cell: raw string, parser and location
(`shrl/field.py`, `LoadedField`). -/
structure LoadedField where
  src : String
  fld : Field
  loc : SourceLocation
deriving DecidableEq, Repr

/-- `LoadedField._parse`. -/
def LoadedField.parseCell (lf : LoadedField) : Except FieldParsingError (Option FieldValue) :=
  lf.fld.parse (some lf.src) lf.loc

/-- `LoadedField._parse_or`: swallow a `FieldParsingError` and return the
caller-supplied fallback. -/
def LoadedField.parseCellOr (lf : LoadedField) (default : Option FieldValue) :
    Option FieldValue :=
  match lf.parseCell with
  | .ok v => v
  | .error _ => default

/-- A loaded row (`shrl/row.py`, `LoadedRow`): a dict from field name to
loaded cell, modelled as an association list in insertion order. -/
abbrev LoadedRow := List (String × LoadedField)

/-- A list of loaded rows (`shrl/case.py`, `LoadedRows`). -/
abbrev LoadedRows := List LoadedRow

/-- Lookup in an association list (Python dict access, `None` for a missing
key). -/
def alookup {α : Type} : List (String × α) → String → Option α
  | [], _ => none
  | (k', v) :: rest, k => if k' = k then some v else alookup rest k

/-- Errors raised while grouping and parsing rows (`shrl/case.py`).
`parsing` is `case.ParsingError`; `fieldParsing` is a propagated
`FieldParsingError`; the remaining constructors stand for the uncaught
Python exceptions the code can raise (`row[k]` on a missing key, `rows[0]`
on an empty list, `next` on an empty generator, a failed `assert`). -/
inductive CaseError where
  | parsing : SourceLocation → String → CaseError
  | fieldParsing : FieldParsingError → CaseError
  | keyError : String → CaseError
  | indexError : CaseError
  | stopIteration : CaseError
  | assertionError : CaseError
deriving DecidableEq, Repr

/-- Location of a row for error reporting:
`next(f.loc for f in row.values())` — the first cell's location, or a
`StopIteration` for a cell-less row. -/
def firstLoc (row : LoadedRow) : Except CaseError SourceLocation :=
  match row with
  | [] => .error .stopIteration
  | (_, lf) :: _ => .ok lf.loc

/-- Scanning loop of `split_rows` (`shrl/case.py` lines 55-62): advance
while the (fallible) predicate returns true, splitting the list at the
first failure. -/
def takeWhileE (pred : LoadedRow → Except CaseError Bool) :
    LoadedRows → Except CaseError (LoadedRows × LoadedRows)
  | [] => .ok ([], [])
  | r :: rs =>
    match pred r with
    | .error e => .error e
    | .ok false => .ok ([], r :: rs)
    | .ok true =>
      match takeWhileE pred rs with
      | .error e => .error e
      | .ok (pre, rest) => .ok (r :: pre, rest)

/-- Message of the located error `split_rows` raises when its predicate
fails on the first row. -/
def splitMsg : String := "Tried to split rows but predicate was invalid on first row"

/-- `split_rows` (`shrl/case.py` lines 43-62): maximal contiguous matching
run of rows.  Empty input returns two empty lists; a predicate failure on
the first row raises a located `ParsingError`; otherwise the rows are split
at the end of the maximal matching run. -/
def split_rows (pred : LoadedRow → Except CaseError Bool) (rows : LoadedRows) :
    Except CaseError (LoadedRows × LoadedRows) :=
  match rows with
  | [] => .ok ([], [])
  | r :: rs =>
    match pred r with
    | .error e => .error e
    | .ok false =>
      match firstLoc r with
      | .error e => .error e
      | .ok loc => .error (.parsing loc splitMsg)
    | .ok true =>
      if rs = [] then .ok ([r], [])
      else takeWhileE pred (r :: rs)

/-- The key value of a row: `row[key]._parse()`, with a `KeyError` for a
missing key and a propagated `FieldParsingError`. -/
def headKeyVal (key : String) (row : LoadedRow) : Except CaseError (Option FieldValue) :=
  match alookup row key with
  | none => .error (.keyError key)
  | some lf =>
    match lf.parseCell with
    | .ok v => .ok v
    | .error e => .error (.fieldParsing e)

/-- Predicate built inside `group_rows` (`shrl/case.py` lines 72-73):
`row[key_field]._parse_or(fld_val) == fld_val`. -/
def groupPred (key : String) (fld_val : Option FieldValue) (row : LoadedRow) :
    Except CaseError Bool :=
  match alookup row key with
  | none => .error (.keyError key)
  | some lf => .ok (optPyEq (lf.parseCellOr fld_val) fld_val)

/-- An infallible row predicate: a plain boolean predicate lifted to the
fallible predicate type `split_rows` consumes (the form of predicate the
spec's `split_rows` property quantifies over). -/
def purePred (p : LoadedRow → Bool) : LoadedRow → Except CaseError Bool :=
  fun r => .ok (p r)

/-- Loop body of `group_rows` (`shrl/case.py` lines 65-80), with an explicit
fuel argument standing for the loop's termination; the input list shrinks
by at least one on every iteration, so a fuel of `rows.length` is always
sufficient and the fuel-exhaustion branch is unreachable (proved below).
An empty remainder raises `IndexError` from `rest[0]`, as in the source. -/
def group_rows_fuel (key : String) : Nat → LoadedRows → Except CaseError (List LoadedRows)
  | _, [] => .error .indexError
  | 0, _ :: _ => .error .indexError
  | fuel + 1, r0 :: rs =>
    match headKeyVal key r0 with
    | .error e => .error e
    | .ok fld_val =>
      match split_rows (groupPred key fld_val) (r0 :: rs) with
      | .error e => .error e
      | .ok (chunk, rest) =>
        if rest = [] then .ok [chunk]
        else
          match group_rows_fuel key fuel rest with
          | .error e => .error e
          | .ok more => .ok (chunk :: more)

/-- `group_rows` (`shrl/case.py` lines 65-80): repeatedly split off the
maximal run of leading rows whose key value equals the first row's key
value under parse-or-default semantics. -/
def group_rows (key : String) (rows : LoadedRows) : Except CaseError (List LoadedRows) :=
  group_rows_fuel key rows.length rows

/-- Map a fallible function over a list, stopping at the first error (the
behaviour of a Python loop or comprehension that raises). -/
def mapE {α β : Type} (f : α → Except CaseError β) : List α → Except CaseError (List β)
  | [] => .ok []
  | x :: xs =>
    match f x with
    | .error e => .error e
    | .ok y =>
      match mapE f xs with
      | .error e => .error e
      | .ok ys => .ok (y :: ys)

/-- `get_named_fields` (`shrl/case.py` lines 83-90): parse the named fields
of a row into a value map. -/
def get_named_fields (field_names : List String) (source : LoadedRow) :
    Except CaseError (List (String × Option FieldValue)) :=
  match field_names with
  | [] => .ok []
  | n :: rest =>
    match headKeyVal n source with
    | .error e => .error e
    | .ok v =>
      match get_named_fields rest source with
      | .error e => .error e
      | .ok tail => .ok ((n, v) :: tail)

/-- A post-validation value map (`shrl/case.py`, `Values`). -/
abbrev Values := List (String × Option FieldValue)

/-- One clinical visit's values and per-sequence value maps
(`shrl/case.py`, `Clinical`). -/
structure Clinical where
  values : Values
  sequences : List Values
deriving DecidableEq, Repr

/-- One participant case (`shrl/case.py`, `Case`). -/
structure Case where
  participant : Values
  behavior : Values
  clinical : List Clinical
deriving DecidableEq, Repr

/-- Field names extracted by `parse_participant`. -/
def participantFields : List String :=
  ["id", "country", "sex", "ethnicity", "year_of_birth", "ltfu", "ltfu_year",
   "died", "cod"]

/-- Field names extracted by `parse_behavior`. -/
def behaviorFields : List String :=
  ["sex_ori", "idu", "idu_recent", "ndu", "ndu_recent", "prison"]

/-- Field names extracted by `parse_clinical`. -/
def clinicalFields : List String :=
  ["kind", "hiv", "hbv", "ost", "cirr", "fibrosis", "inflamation",
   "metavir_by", "stiff", "alt", "ast", "crt", "egfr", "ctp", "meld",
   "ishak", "bil", "hemo", "alb", "inr", "phos", "urea", "plate", "CD4",
   "crp", "il28b", "asc", "var_bleed", "hep_car", "transpl", "vl",
   "first_treatment", "duration_act", "regimen", "prev_regimen",
   "pprev_regimen", "response", "treatment_notes"]

/-- Field names extracted by `parse_sequence`. -/
def sequenceFields : List String :=
  ["seq_kind", "genotype", "subgenotype", "strain", "seq_id", "gene",
   "seq_method", "cutoff", "seq_notes"]

/-- `parse_participant` (`shrl/case.py` lines 97-112): the explicit
`values["id"] = row["id"]._parse()` is immediately overwritten by the
`update` with the same (purely re-parsed) value, so the result is the value
map of `participantFields`; an "id" parse failure still surfaces first, as
in the source. -/
def parse_participant (row : LoadedRow) : Except CaseError Values :=
  match headKeyVal "id" row with
  | .error e => .error e
  | .ok _ => get_named_fields participantFields row

/-- `parse_behavior` (`shrl/case.py` lines 115-117). -/
def parse_behavior (row : LoadedRow) : Except CaseError Values :=
  get_named_fields behaviorFields row

/-- `parse_clinical` (`shrl/case.py` lines 120-161). -/
def parse_clinical (row : LoadedRow) : Except CaseError Values :=
  get_named_fields clinicalFields row

/-- `parse_sequence` (`shrl/case.py` lines 164-176). -/
def parse_sequence (row : LoadedRow) : Except CaseError Values :=
  get_named_fields sequenceFields row

/-- Consistency check of `parse_case` (`shrl/case.py` lines 187-192): every
row's id, parsed-or-defaulted to the case id, must equal the case id. -/
def checkRowIds (case_id : Option FieldValue) : LoadedRows → Except CaseError Unit
  | [] => .ok ()
  | row :: rest =>
    match alookup row "id" with
    | none => .error (.keyError "id")
    | some lf =>
      if optPyEq (lf.parseCellOr case_id) case_id then checkRowIds case_id rest
      else
        match firstLoc row with
        | .error e => .error e
        | .ok loc => .error (.parsing loc "Inconsistent case id")

/-- Per-visit parsing step of `parse_case` (`shrl/case.py` lines 197-200):
the first row of a visit group supplies the clinical values, every row
supplies one sequence value map. -/
def parseClinicalGroup (g : LoadedRows) : Except CaseError Clinical :=
  match g with
  | [] => .error .indexError
  | c0 :: _ =>
    match parse_clinical c0 with
    | .error e => .error e
    | .ok values =>
      match mapE parse_sequence g with
      | .error e => .error e
      | .ok seqs => .ok ⟨values, seqs⟩

/-- `parse_case` (`shrl/case.py` lines 179-202): check the case id is
present and consistent, extract participant and behavior fields from the
first row, and carve the rows into clinical-visit groups keyed on "kind". -/
def parse_case (caseRows : LoadedRows) : Except CaseError Case :=
  match caseRows with
  | [] => .error .indexError
  | r0 :: _ =>
    match headKeyVal "id" r0 with
    | .error e => .error e
    | .ok case_id =>
      if case_id = none then
        match firstLoc r0 with
        | .error e => .error e
        | .ok loc => .error (.parsing loc "Unexpected null case id")
      else
        match checkRowIds case_id caseRows with
        | .error e => .error e
        | .ok () =>
          match parse_participant r0 with
          | .error e => .error e
          | .ok participant =>
            match parse_behavior r0 with
            | .error e => .error e
            | .ok behavior =>
              match group_rows "kind" caseRows with
              | .error e => .error e
              | .ok groups =>
                match mapE parseClinicalGroup groups with
                | .error e => .error e
                | .ok clinical => .ok ⟨participant, behavior, clinical⟩

/-- Predicate of `case_rows` (`shrl/case.py` lines 216-221): a row matches
the current case if its id parses to the case id or to an absent value, a
`FieldParsingError` counting as absent. -/
def matches_case (case_id : Option FieldValue) (row : LoadedRow) :
    Except CaseError Bool :=
  match alookup row "id" with
  | none => .error (.keyError "id")
  | some lf =>
    let row_id : Option FieldValue :=
      match lf.parseCell with
      | .ok v => v
      | .error _ => none
    .ok (optPyEq row_id case_id || row_id.isNone)

/-- `case_rows` (`shrl/case.py` lines 209-223): pop one case's worth of rows.
The first row's id must parse to a non-null value ("Missing Case ID"
otherwise); the case's rows are the maximal matching run. -/
def case_rows (rows : LoadedRows) : Except CaseError (LoadedRows × LoadedRows) :=
  match rows with
  | [] => .error .indexError
  | r0 :: _ =>
    match headKeyVal "id" r0 with
    | .error e => .error e
    | .ok case_id =>
      if case_id = none then
        match firstLoc r0 with
        | .error e => .error e
        | .ok loc => .error (.parsing loc "Missing Case ID")
      else split_rows (matches_case case_id) rows

/-- `get_one_case` (`shrl/case.py` lines 226-232): pop and parse one case;
an empty input yields no case and no remaining rows. -/
def get_one_case (rows : LoadedRows) : Except CaseError (Option Case × LoadedRows) :=
  match rows with
  | [] => .ok (none, [])
  | _ :: _ =>
    match case_rows rows with
    | .error e => .error e
    | .ok (cr, rest) =>
      match parse_case cr with
      | .error e => .error e
      | .ok c => .ok (some c, rest)

/-- Message of the fatal error `cases` raises on leftover rows. -/
def leftoverMsg : String := "Leftover rows while parsing cases"

/-- Loop of `cases` (`shrl/case.py` lines 239-251) with an explicit fuel
standing for the loop's termination; every iteration that yields a case
strictly shrinks the row list, so a fuel of `rows.length + 1` is always
sufficient and the fuel-exhaustion branch is unreachable (proved below). -/
def cases_fuel : Nat → LoadedRows → Except CaseError (List Case)
  | 0, _ => .error .indexError
  | fuel + 1, rows =>
    match get_one_case rows with
    | .error e => .error e
    | .ok (none, rest) =>
      match rest with
      | [] => .ok []
      | r :: _ =>
        match firstLoc r with
        | .error e => .error e
        | .ok loc => .error (.parsing loc leftoverMsg)
    | .ok (some c, rest) =>
      match cases_fuel fuel rest with
      | .error e => .error e
      | .ok cs => .ok (c :: cs)

/-- `cases` (`shrl/case.py` lines 239-251): separate and parse rows into
data for individual cases, raising a located "Leftover rows" error if rows
remain after the last extracted case. -/
def cases (rows : LoadedRows) : Except CaseError (List Case) :=
  cases_fuel (rows.length + 1) rows

/-- An error that is not the "Leftover rows while parsing cases" error —
the specification predicate used to show that error branch unreachable. -/
def notLeftover (e : CaseError) : Prop :=
  ∀ loc, e ≠ .parsing loc leftoverMsg

/-- Supply of fresh identifiers modelling `uuid.uuid4()`: each draw returns
the counter and advances it, so every draw is distinct from all previous
draws. -/
structure UuidGen where
  next : Nat
deriving DecidableEq, Repr

/-- Draw one fresh identifier. -/
def uuid4 (g : UuidGen) : Nat × UuidGen := (g.next, ⟨g.next + 1⟩)

/-- Update an association list at a key, keeping the key's position if it is
already present and appending otherwise — CPython dict assignment. -/
def aupdate {κ α : Type} [DecidableEq κ] : List (κ × α) → κ → α → List (κ × α)
  | [], k, v => [(k, v)]
  | (k', v') :: rest, k, v =>
    if k' = k then (k, v) :: rest else (k', v') :: aupdate rest k v

/-- Lookup in an association list with a decidable key type. -/
def klookup {κ α : Type} [DecidableEq κ] : List (κ × α) → κ → Option α
  | [], _ => none
  | (k', v) :: rest, k => if k' = k then some v else klookup rest k

/-- The regimen registry (`shrl/transform/util.py`, `RegimenRegistry`): a
dict from a regimen's structural hash to an `(identifier, regimen)` pair.
The regimen type and its Python `hash` are external (`shared_schema`
collaborator), so the registry is parametric in both. -/
structure RegimenRegistry (R : Type) where
  storage : List (Int × Nat × R)
deriving DecidableEq, Repr

/-- `RegimenRegistry.__contains__`: `hash(regimen) in self._storage`. -/
def RegimenRegistry.mem {R : Type} (hashR : R → Int) (self : RegimenRegistry R)
    (regimen : R) : Bool :=
  (klookup self.storage (hashR regimen)).isSome

/-- `RegimenRegistry.get`: `self._storage[hash(regimen)]` (a `KeyError` for
an absent hash is modelled as `none`; the code only calls `get` after a
containment check). -/
def RegimenRegistry.get {R : Type} (hashR : R → Int) (self : RegimenRegistry R)
    (regimen : R) : Option (Nat × R) :=
  klookup self.storage (hashR regimen)

/-- `RegimenRegistry.add` (`shrl/transform/util.py` lines 24-33): store
`(reg_id, regimen)` at the regimen's hash, minting a fresh identifier when
none is supplied; an existing entry at that hash is overwritten. -/
def RegimenRegistry.add {R : Type} (hashR : R → Int) (self : RegimenRegistry R)
    (regimen : R) (reg_id : Option Nat) (gen : UuidGen) :
    (Nat × R) × RegimenRegistry R × UuidGen :=
  let reg_hash := hashR regimen
  let (rid, gen') :=
    match reg_id with
    | some i => (i, gen)
    | none => uuid4 gen
  ((rid, regimen), ⟨aupdate self.storage reg_hash (rid, regimen)⟩, gen')

/-- `RegimenRegistry.get_or_create_id` (`shrl/transform/util.py` lines
55-62): the existing identifier of a structurally identical regimen, or a
freshly minted one. -/
def RegimenRegistry.get_or_create_id {R : Type} (hashR : R → Int)
    (self : RegimenRegistry R) (regimen : R) (gen : UuidGen) :
    Nat × RegimenRegistry R × UuidGen :=
  match self.get hashR regimen with
  | some (reg_id, _) => (reg_id, self, gen)
  | none =>
    let ((reg_id, _), self', gen') := self.add hashR regimen none gen
    (reg_id, self', gen')

/-- A BioPython `SeqRecord` as the sequence registry uses it: its `id`,
`name` and sequence string. -/
structure SeqRecord where
  id : String
  name : String
  seq : String
deriving DecidableEq, Repr

/-- `SequenceRegistry.id_function`: `str(seq.id)`. -/
def id_function (s : SeqRecord) : String := s.id

/-- `SequenceRegistry.hash_key`: the `(name, sequence)` pair considered for
the record's hash.  The Python code stores `hash(key)`; the model stores the
key itself, i.e. the hash is assumed collision-free. -/
def hash_key (s : SeqRecord) : String × String := (s.name, s.seq)

/-- The sequence registry (`shrl/transform/util.py`, `SequenceRegistry`):
a dict from derived external id to record, plus the set of hashes seen. -/
structure SequenceRegistry where
  seq_store : List (String × SeqRecord)
  hash_store : List (String × String)
deriving DecidableEq, Repr

/-- A freshly constructed, empty sequence registry. -/
def SequenceRegistry.empty : SequenceRegistry := ⟨[], []⟩

/-- `SequenceRegistry.__contains__`: `seq_id in self._seq_store`. -/
def SequenceRegistry.mem (self : SequenceRegistry) (seq_id : String) : Bool :=
  (alookup self.seq_store seq_id).isSome

/-- `SequenceRegistry.get` (`shrl/transform/util.py` lines 107-112): the
record stored under an id, or a locatable `KeyError` message. -/
def SequenceRegistry.getSeq (self : SequenceRegistry) (seq_id : String) :
    Except String SeqRecord :=
  match alookup self.seq_store seq_id with
  | none => .error ("Missing sequence with id '" ++ seq_id ++ "'")
  | some r => .ok r

/-- `SequenceRegistry.check_in_sequence` (`shrl/transform/util.py` lines
141-148): record the sequence's hash, failing on a duplicate. -/
def SequenceRegistry.check_in_sequence (self : SequenceRegistry)
    (sequence : SeqRecord) : Except String SequenceRegistry :=
  if hash_key sequence ∈ self.hash_store then
    .error ("Duplicate sequence: name='" ++ sequence.name ++ "'")
  else .ok ⟨self.seq_store, self.hash_store ++ [hash_key sequence]⟩

/-- `SequenceRegistry.add_seqs` (`shrl/transform/util.py` lines 150-155):
check and insert records one at a time.  The returned registry reflects all
mutations performed before a duplicate error, which is returned alongside
it (the Python method mutates `self` in place and raises). -/
def SequenceRegistry.add_seqs (self : SequenceRegistry) :
    List SeqRecord → SequenceRegistry × Option String
  | [] => (self, none)
  | r :: rest =>
    match self.check_in_sequence r with
    | .error msg => (self, some msg)
    | .ok self' =>
      SequenceRegistry.add_seqs
        ⟨aupdate self'.seq_store (id_function r) r, self'.hash_store⟩ rest

/-- `_get_enum_name` (`shrl/transform/convert.py` lines 19-23): `None`
passes through; an enum member is rendered to its lowercase name; the
`assert isinstance(e_member, enum.Enum)` fails on any other value. -/
def get_enum_name : Option FieldValue → Except CaseError (Option FieldValue)
  | none => .ok none
  | some (.enumMember _ m) => .ok (some (.str (pyLower m)))
  | some _ => .error .assertionError

/-- The field names copied into a `ClinicalData` entity
(`shrl/transform/convert.py` lines 93-125). -/
def clinicalDataFields : List String :=
  ["kind", "hiv", "hbv", "ost", "cirr", "fibrosis", "inflamation",
   "metavir_by", "stiff", "alt", "ast", "crt", "egfr", "ctp", "meld",
   "ishak", "bil", "hemo", "alb", "inr", "phos", "urea", "plate", "CD4",
   "crp", "il28b", "asc", "var_bleed", "hep_car", "transpl", "vl"]

/-- A `ClinicalData` entity.  The entity's named tuple layout lives in the
external `shared_schema` package; the model keeps the generated id, the
case id, and the keyword-argument map the code builds. -/
structure ClinicalData where
  id : Nat
  case_id : Nat
  kwargs : Values
deriving DecidableEq, Repr

/-- Keyword arguments of one `ClinicalData` entity
(`shrl/transform/convert.py` lines 128-130): the clinical field values of a
visit, with "kind" and "il28b" rendered to their lowercase enum names.
A missing field raises `KeyError`. -/
def clinicalKwargs (src : Clinical) : Except CaseError Values :=
  match mapE (fun f =>
      match alookup src.values f with
      | none => Except.error (CaseError.keyError f)
      | some v => Except.ok (f, v)) clinicalDataFields with
  | .error e => .error e
  | .ok kwargs =>
    match get_enum_name (alookup kwargs "kind").join with
    | .error e => .error e
    | .ok kind =>
      match get_enum_name (alookup kwargs "il28b").join with
      | .error e => .error e
      | .ok il28b => .ok (aupdate (aupdate kwargs "kind" kind) "il28b" il28b)

/-- `make_clinical_data.parse_one` (`shrl/transform/convert.py` lines
127-135): skip a visit whose rendered values are all null, otherwise build
an entity with a fresh id. -/
def parse_one (case_id : Nat) (gen : UuidGen) (src : Clinical) :
    Except CaseError (Option ClinicalData × UuidGen) :=
  match clinicalKwargs src with
  | .error e => .error e
  | .ok kwargs =>
    if kwargs.all (fun p => p.2 = none) then .ok (none, gen)
    else
      let (u, gen') := uuid4 gen
      .ok (some ⟨u, case_id, kwargs⟩, gen')

/-- `make_clinical_data` (`shrl/transform/convert.py` lines 137-141): the
comprehension `[parse_one(c) for c in clinical if parse_one(c) is not None]`
evaluates `parse_one` once for the filter test and once more for each kept
element, consuming a fresh id each time an entity is built. -/
def make_clinical_data (case_id : Nat) (gen : UuidGen) :
    List Clinical → Except CaseError (List ClinicalData × UuidGen)
  | [] => .ok ([], gen)
  | cl :: rest =>
    match parse_one case_id gen cl with
    | .error e => .error e
    | .ok (none, gen1) => make_clinical_data case_id gen1 rest
    | .ok (some _, gen1) =>
      match parse_one case_id gen1 cl with
      | .error e => .error e
      | .ok (none, gen2) => make_clinical_data case_id gen2 rest
      | .ok (some cd, gen2) =>
        match make_clinical_data case_id gen2 rest with
        | .error e => .error e
        | .ok (out, gen3) => .ok (cd :: out, gen3)

/-- A `TreatmentData` entity (named tuple layout external to the repo). -/
structure TreatmentData where
  id : Nat
  case_id : Nat
  first_treatment : Option FieldValue
  duration_act : Option FieldValue
  regimen_id : Option Nat
  prev_regimen_id : Option Nat
  pprev_regimen_id : Option Nat
  response : Option FieldValue
  notes : Option FieldValue
deriving DecidableEq, Repr

/-- `get_reg_id` inside `make_treatment_data` (`shrl/transform/convert.py`
lines 150-157): a null source value yields no regimen id; otherwise the
source value is expanded and canonicalized by the external `shared_schema`
collaborator (the parameter `parseReg`) and resolved through the regimen
registry. -/
def get_reg_id {R : Type} (hashR : R → Int) (parseReg : FieldValue → R)
    (rreg : RegimenRegistry R) (gen : UuidGen) (cln : Clinical) (key : String) :
    Option Nat × RegimenRegistry R × UuidGen :=
  match (alookup cln.values key).join with
  | none => (none, rreg, gen)
  | some src =>
    let reg := parseReg src
    let (reg_id, rreg', gen') := rreg.get_or_create_id hashR reg gen
    (some reg_id, rreg', gen')

/-- `make_treatment_data.tx_data` (`shrl/transform/convert.py` lines
147-169): one `TreatmentData` entity per clinical visit; the entity id is
minted first, then the three regimen references are resolved in argument
order. -/
def tx_data {R : Type} (hashR : R → Int) (parseReg : FieldValue → R)
    (case_id : Nat) (rreg : RegimenRegistry R) (gen : UuidGen) (cln : Clinical) :
    Except CaseError (TreatmentData × RegimenRegistry R × UuidGen) :=
  let (tx_id, gen0) := uuid4 gen
  let (reg_id, rreg1, gen1) := get_reg_id hashR parseReg rreg gen0 cln "regimen"
  let (prev_id, rreg2, gen2) := get_reg_id hashR parseReg rreg1 gen1 cln "prev_regimen"
  let (pprev_id, rreg3, gen3) := get_reg_id hashR parseReg rreg2 gen2 cln "pprev_regimen"
  match get_enum_name (alookup cln.values "response").join with
  | .error e => .error e
  | .ok response =>
    .ok (⟨tx_id, case_id, (alookup cln.values "first_treatment").join,
      (alookup cln.values "duration_act").join, reg_id, prev_id, pprev_id,
      response, (alookup cln.values "treatment_notes").join⟩, rreg3, gen3)

/-- `make_treatment_data` (`shrl/transform/convert.py` lines 144-171): one
entity per visit, regardless of nullness, threading the regimen registry
and the id supply. -/
def make_treatment_data {R : Type} (hashR : R → Int) (parseReg : FieldValue → R)
    (case_id : Nat) (rreg : RegimenRegistry R) (gen : UuidGen) :
    List Clinical → Except CaseError (List TreatmentData × RegimenRegistry R × UuidGen)
  | [] => .ok ([], rreg, gen)
  | cln :: rest =>
    match tx_data hashR parseReg case_id rreg gen cln with
    | .error e => .error e
    | .ok (td, rreg1, gen1) =>
      match make_treatment_data hashR parseReg case_id rreg1 gen1 rest with
      | .error e => .error e
      | .ok (out, rreg2, gen2) => .ok (td :: out, rreg2, gen2)

/-- The accepted genotypes (`shrl/transform/align.py` line 13). -/
def GENOTYPES : List String := ["1", "2", "3", "4", "5", "6"]

/-- `check_gt_and_subgt` (`shrl/transform/align.py` lines 12-19): the
genotype must be one of "1".."6" and a present subgenotype must be at most
one character long. -/
def check_gt_and_subgt (gt : String) (subgt : Option String) : Except String Unit :=
  if !GENOTYPES.contains gt then .error ("Invalid Genotype: " ++ gt)
  else
    match subgt with
    | none => .ok ()
    | some s => if s.length > 1 then .error ("Invalid subgenotype: " ++ s) else .ok ()

/-- `profile_name` (`shrl/transform/align.py` lines 22-31): choose the
nucamino alignment profile from genotype and subgenotype. -/
def profile_name (gt : String) (subgt : Option String) : Except String String :=
  match check_gt_and_subgt gt subgt with
  | .error e => .error e
  | .ok () =>
    if gt = "1" then
      if subgt = some "b" then .ok "hcv1b" else .ok "hcv1a"
    else .ok ("hcv" ++ gt)

/-- `ensure_fasta_formatted` (`shrl/transform/align.py` lines 55-60). -/
def ensure_fasta_formatted (seq_str : String) (hdr : String) : String :=
  if !seq_str.startsWith ">" then "> " ++ hdr ++ "\n" ++ seq_str else seq_str

/-- Head of `make_entities` (`shrl/transform/align.py` lines 129-162): the
profile name is computed and the sequence FASTA-formatted before the
external aligner (`pn.align`, the parameter `alignFn`) is invoked; the
processing of the aligner's report into Alignment/Substitution entities is
abstracted as the continuation `k` — it concerns only the external report
format and is irrelevant to profile selection. -/
def make_entities_profile {A B : Type} (alignFn : String → String → List String → A)
    (k : A → B) (raw_nt_seq : String) (genotype : String)
    (subgenotype : Option String) (genes : List String) : Except String B :=
  match profile_name genotype subgenotype with
  | .error e => .error e
  | .ok pname =>
    let nt_seq := ensure_fasta_formatted raw_nt_seq "Aligned Sequence"
    .ok (k (alignFn nt_seq pname genes))


/-! ### Helper lemmas -/

theorem pyStrip_blank_chars {s : String} (hs : pyStrip s = "") :
    ∀ c ∈ s.data, c.isWhitespace = true := by
  intro c hc
  have hdata : (pyStrip s).data = [] := by rw [hs]
  unfold pyStrip at hdata
  simp only [List.reverse_eq_nil_iff] at hdata
  have hall : ∀ x ∈ (s.data.dropWhile Char.isWhitespace), x.isWhitespace = true := by
    intro x hx
    exact List.dropWhile_eq_nil_iff.mp hdata x (List.mem_reverse.mpr hx)
  have hsplit := List.takeWhile_append_dropWhile (p := Char.isWhitespace) (l := s.data)
  rw [← hsplit] at hc
  rcases List.mem_append.mp hc with h | h
  · exact List.mem_takeWhile_imp h
  · exact hall c h

theorem span_all_ne {l : List Char} {a : Char} (h : ∀ c ∈ l, c ≠ a) :
    l.span (fun c => c ≠ a) = (l, []) := by
  rw [List.span_eq_take_drop]
  refine Prod.ext ?_ ?_
  · simp only
    rw [List.takeWhile_eq_self_iff]
    intro x hx
    simpa using h x hx
  · simp only
    rw [List.dropWhile_eq_nil_iff]
    intro x hx
    simpa using h x hx

theorem pyParseDate_blank {s : String} (hs : pyStrip s = "") : pyParseDate s = none := by
  have hw := pyStrip_blank_chars hs
  have hnd : ∀ c ∈ s.data, c ≠ '-' := by
    intro c hc he
    have := hw c hc
    rw [he] at this
    simp at this
  unfold pyParseDate
  rw [span_all_ne hnd]

theorem pyParseInt_blank {s : String} (hs : pyStrip s = "") : pyParseInt s = none := by
  unfold pyParseInt
  rw [hs]
  decide

theorem pyParseFloat_blank {s : String} (hs : pyStrip s = "") : pyParseFloat s = none := by
  unfold pyParseFloat
  rw [hs]
  decide

/-! ### C1 -/

/-- C1 counterexample: the claim asserts that a required Boolean field
fails on an empty-string raw value, but `BoolField.parse_type` maps the
empty string to a successfully parsed `None` (the empty string is in its
`nones` literal set), so `parse` returns an absent value and raises no
error even though the field is required. -/
theorem c1_counterexample :
    (Field.bool "died" true).parse (some "") ⟨"input.csv", 3⟩ = .ok none ∧
    ∀ e, (Field.bool "died" true).parse (some "") ⟨"input.csv", 3⟩ ≠ .error e := by
  refine ⟨by decide, ?_⟩
  intro e h
  rw [show (Field.bool "died" true).parse (some "") ⟨"input.csv", 3⟩ = .ok none
    from by decide] at h
  exact Except.noConfusion h

/-- C1 (amended): for the Date, Number, String, Enum (with no empty
option) and ForeignKey variants, a required field fails with the located
"Missing required field" error on an absent raw value and on any
empty or whitespace-only raw value, and an optional field returns an
absent value on those inputs; a Boolean field behaves the same way on an
absent (`None`) raw value, but maps an empty or whitespace-only raw string
to a successfully parsed absent value with no error, whether required or
not. -/
theorem c1_required_blank_fields
    (nm tgt : String) (opts : List String) (loc : SourceLocation) (s : String)
    (hs : pyStrip s = "") (hsl : pyStrip (pyLower s) = "")
    (hopts : "" ∉ opts) :
    (∀ f ∈ [Field.bool nm true, Field.date nm true, Field.number nm true,
        Field.str nm true, Field.enum nm opts true, Field.foreignKey nm tgt true],
      f.parse none loc = .error ⟨loc, "Missing required field: " ++ nm⟩) ∧
    (∀ f ∈ [Field.bool nm false, Field.date nm false, Field.number nm false,
        Field.str nm false, Field.enum nm opts false, Field.foreignKey nm tgt false],
      f.parse none loc = .ok none) ∧
    (∀ f ∈ [Field.date nm true, Field.number nm true, Field.str nm true,
        Field.enum nm opts true, Field.foreignKey nm tgt true],
      f.parse (some s) loc = .error ⟨loc, "Missing required field: " ++ nm⟩) ∧
    (∀ f ∈ [Field.date nm false, Field.number nm false, Field.str nm false,
        Field.enum nm opts false, Field.foreignKey nm tgt false],
      f.parse (some s) loc = .ok none) ∧
    (∀ req : Bool, (Field.bool nm req).parse (some s) loc = .ok none) := by
  refine ⟨?_, ?_, ?_, ?_, ?_⟩
  · intro f hf
    fin_cases hf <;>
      simp [Field.parse, Field.handle_none, Field.required, Field.name]
  · intro f hf
    fin_cases hf <;>
      simp [Field.parse, Field.handle_none, Field.required, Field.name]
  · intro f hf
    fin_cases hf <;>
      simp [Field.parse, Field.parse_type, Field.handle_none, Field.required,
        Field.name, pyParseDate_blank hs, pyParseInt_blank hs,
        pyParseFloat_blank hs, hs, hsl, hopts]
  · intro f hf
    fin_cases hf <;>
      simp [Field.parse, Field.parse_type, Field.handle_none, Field.required,
        Field.name, pyParseDate_blank hs, pyParseInt_blank hs,
        pyParseFloat_blank hs, hs, hsl, hopts]
  · intro req
    simp [Field.parse, Field.parse_type, Field.handle_none, Field.required,
      Field.name, hs, hsl, boolFalses, boolTrues, boolNones]

/-- C1 witness: the amended theorem applied at concrete inputs (field name
"died", enum options ["male", "female"], raw value a single space). -/
theorem c1_witness :
    (∀ f ∈ [Field.bool "died" true, Field.date "died" true, Field.number "died" true,
        Field.str "died" true, Field.enum "died" ["male", "female"] true,
        Field.foreignKey "died" "person" true],
      f.parse none ⟨"input.csv", 3⟩ =
        .error ⟨⟨"input.csv", 3⟩, "Missing required field: " ++ "died"⟩) ∧
    (∀ f ∈ [Field.bool "died" false, Field.date "died" false, Field.number "died" false,
        Field.str "died" false, Field.enum "died" ["male", "female"] false,
        Field.foreignKey "died" "person" false],
      f.parse none ⟨"input.csv", 3⟩ = .ok none) ∧
    (∀ f ∈ [Field.date "died" true, Field.number "died" true, Field.str "died" true,
        Field.enum "died" ["male", "female"] true, Field.foreignKey "died" "person" true],
      f.parse (some " ") ⟨"input.csv", 3⟩ =
        .error ⟨⟨"input.csv", 3⟩, "Missing required field: " ++ "died"⟩) ∧
    (∀ f ∈ [Field.date "died" false, Field.number "died" false, Field.str "died" false,
        Field.enum "died" ["male", "female"] false, Field.foreignKey "died" "person" false],
      f.parse (some " ") ⟨"input.csv", 3⟩ = .ok none) ∧
    (∀ req : Bool, (Field.bool "died" req).parse (some " ") ⟨"input.csv", 3⟩ = .ok none) :=
  c1_required_blank_fields "died" "person" ["male", "female"] ⟨"input.csv", 3⟩ " "
    (by decide) (by decide) (by decide)

/-! ### Lemmas about `takeWhileE` and `split_rows` -/

theorem takeWhileE_ok_append {pred : LoadedRow → Except CaseError Bool} :
    ∀ {rows pre rest : LoadedRows},
      takeWhileE pred rows = .ok (pre, rest) → pre ++ rest = rows := by
  intro rows
  induction rows with
  | nil =>
    intro pre rest h
    simp only [takeWhileE] at h
    cases h
    rfl
  | cons r rs ih =>
    intro pre rest h
    simp only [takeWhileE] at h
    split at h
    · cases h
    · cases h; rfl
    · split at h
      · cases h
      all_goals
        rename_i heq
        cases h
        simpa using ih heq

theorem takeWhileE_ok_all {pred : LoadedRow → Except CaseError Bool} :
    ∀ {rows pre rest : LoadedRows},
      takeWhileE pred rows = .ok (pre, rest) → ∀ x ∈ pre, pred x = .ok true := by
  intro rows
  induction rows with
  | nil =>
    intro pre rest h
    simp only [takeWhileE] at h
    cases h
    intro x hx
    cases hx
  | cons r rs ih =>
    intro pre rest h
    simp only [takeWhileE] at h
    split at h
    · cases h
    · cases h
      intro x hx
      cases hx
    · rename_i hpt
      split at h
      · cases h
      all_goals
        rename_i heq
        cases h
        intro x hx
        rcases List.mem_cons.mp hx with hx | hx
        · rw [hx]; exact hpt
        · exact ih heq x hx

theorem takeWhileE_ok_rest {pred : LoadedRow → Except CaseError Bool} :
    ∀ {rows pre rest : LoadedRows},
      takeWhileE pred rows = .ok (pre, rest) →
        rest = [] ∨ ∃ x xs, rest = x :: xs ∧ pred x = .ok false := by
  intro rows
  induction rows with
  | nil =>
    intro pre rest h
    simp only [takeWhileE] at h
    cases h
    exact Or.inl rfl
  | cons r rs ih =>
    intro pre rest h
    simp only [takeWhileE] at h
    split at h
    · cases h
    · rename_i hpf
      cases h
      exact Or.inr ⟨r, rs, rfl, hpf⟩
    · split at h
      · cases h
      all_goals
        rename_i heq
        cases h
        exact ih heq

theorem takeWhileE_total {pred : LoadedRow → Except CaseError Bool} :
    ∀ {rows : LoadedRows}, (∀ r ∈ rows, ∃ b, pred r = .ok b) →
      ∃ pre rest, takeWhileE pred rows = .ok (pre, rest) := by
  intro rows
  induction rows with
  | nil => intro _; exact ⟨[], [], rfl⟩
  | cons r rs ih =>
    intro h
    obtain ⟨b, hb⟩ := h r (List.mem_cons_self r rs)
    obtain ⟨pre, rest, hrec⟩ := ih (fun x hx => h x (List.mem_cons_of_mem r hx))
    cases b with
    | false => exact ⟨[], r :: rs, by simp [takeWhileE, hb]⟩
    | true => exact ⟨r :: pre, rest, by simp [takeWhileE, hb, hrec]⟩

theorem split_rows_ok_append {pred : LoadedRow → Except CaseError Bool}
    {rows pre rest : LoadedRows} (h : split_rows pred rows = .ok (pre, rest)) :
    pre ++ rest = rows := by
  cases rows with
  | nil => simp only [split_rows] at h; cases h; rfl
  | cons r rs =>
    simp only [split_rows] at h
    split at h
    · cases h
    · split at h <;> cases h
    · split at h
      · rename_i hrs
        cases h
        simp [hrs]
      · exact takeWhileE_ok_append h

theorem split_rows_ok_all {pred : LoadedRow → Except CaseError Bool}
    {rows pre rest : LoadedRows} (h : split_rows pred rows = .ok (pre, rest)) :
    ∀ x ∈ pre, pred x = .ok true := by
  cases rows with
  | nil =>
    simp only [split_rows] at h
    cases h
    intro x hx
    cases hx
  | cons r rs =>
    simp only [split_rows] at h
    split at h
    · cases h
    · split at h <;> cases h
    · rename_i hpt
      split at h
      · cases h
        intro x hx
        rcases List.mem_cons.mp hx with hx | hx
        · rw [hx]; exact hpt
        · cases hx
      · exact takeWhileE_ok_all h

theorem split_rows_ok_rest {pred : LoadedRow → Except CaseError Bool}
    {rows pre rest : LoadedRows} (h : split_rows pred rows = .ok (pre, rest)) :
    rest = [] ∨ ∃ x xs, rest = x :: xs ∧ pred x = .ok false := by
  cases rows with
  | nil =>
    simp only [split_rows] at h
    cases h
    exact Or.inl rfl
  | cons r rs =>
    simp only [split_rows] at h
    split at h
    · cases h
    · split at h <;> cases h
    · split at h
      · cases h
        exact Or.inl rfl
      · exact takeWhileE_ok_rest h

theorem split_rows_ok_head {pred : LoadedRow → Except CaseError Bool}
    {r : LoadedRow} {rs pre rest : LoadedRows}
    (h : split_rows pred (r :: rs) = .ok (pre, rest)) :
    ∃ pre2, pre = r :: pre2 := by
  simp only [split_rows] at h
  split at h
  · cases h
  · split at h <;> cases h
  · rename_i hpt
    split at h
    · cases h
      exact ⟨[], rfl⟩
    · simp only [takeWhileE, hpt] at h
      split at h
      · cases h
      all_goals
        cases h
        exact ⟨_, rfl⟩

theorem split_rows_total_of_true {pred : LoadedRow → Except CaseError Bool}
    {r : LoadedRow} {rs : LoadedRows} (hr : pred r = .ok true)
    (htot : ∀ x ∈ rs, ∃ b, pred x = .ok b) :
    ∃ pre rest, split_rows pred (r :: rs) = .ok (pre, rest) := by
  by_cases hrs : rs = []
  · exact ⟨[r], [], by simp [split_rows, hr, hrs]⟩
  · have htot2 : ∀ x ∈ r :: rs, ∃ b, pred x = .ok b := by
      intro x hx
      rcases List.mem_cons.mp hx with hx | hx
      · exact ⟨true, hx ▸ hr⟩
      · exact htot x hx
    obtain ⟨pre, rest, hw⟩ := takeWhileE_total htot2
    exact ⟨pre, rest, by simp [split_rows, hr, hrs, hw]⟩


/-! ### C3 -/

/-- C3: `split_rows` on an empty list returns two empty lists; on a
non-empty list whose first row satisfies the predicate it returns a
splitting `prefix ++ rest = R` in which every prefix row satisfies the
predicate and the remainder is empty or starts with a failing row (a
maximal contiguous matching run, not a filter); on a non-empty list whose
first row fails the predicate it raises the located "Tried to split rows
but predicate was invalid on first row" parsing error. -/
theorem c3_split_rows_spec (p : LoadedRow → Bool) (rows : LoadedRows) :
    (rows = [] → split_rows (purePred p) rows = .ok ([], [])) ∧
    (∀ r rs, rows = r :: rs → p r = true →
      ∃ pre rest, split_rows (purePred p) rows = .ok (pre, rest) ∧
        pre ++ rest = rows ∧ (∀ x ∈ pre, p x = true) ∧
        (rest = [] ∨ ∃ x xs, rest = x :: xs ∧ p x = false)) ∧
    (∀ r rs, rows = r :: rs → p r = false → r ≠ [] →
      ∃ loc, firstLoc r = .ok loc ∧
        split_rows (purePred p) rows = .error (.parsing loc splitMsg)) := by
  refine ⟨?_, ?_, ?_⟩
  · intro h
    rw [h]
    rfl
  · intro r rs hro hp
    subst hro
    have hr : purePred p r = .ok true := by simp [purePred, hp]
    have htot : ∀ x ∈ rs, ∃ b, purePred p x = .ok b := fun x _ => ⟨p x, rfl⟩
    obtain ⟨pre, rest, hs⟩ := split_rows_total_of_true hr htot
    refine ⟨pre, rest, hs, split_rows_ok_append hs, ?_, ?_⟩
    · intro x hx
      have := split_rows_ok_all hs x hx
      simpa [purePred] using this
    · rcases split_rows_ok_rest hs with h | ⟨x, xs, hx, hpx⟩
      · exact Or.inl h
      · refine Or.inr ⟨x, xs, hx, ?_⟩
        simpa [purePred] using hpx
  · intro r rs hro hp hr
    subst hro
    cases r with
    | nil => exact absurd rfl hr
    | cons c cs =>
      refine ⟨c.2.loc, by simp [firstLoc], ?_⟩
      simp [split_rows, purePred, hp, firstLoc]

/-- C3 witness: the theorem applied to the predicate "the row has exactly
one cell" on concrete two-row, one-row and empty inputs. -/
theorem c3_witness :
    (split_rows (purePred (fun row => row.length == 1)) [] = .ok ([], [])) ∧
    (∃ pre rest,
      split_rows (purePred (fun row => row.length == 1))
        [[("id", ⟨"1", Field.number "id" true, ⟨"w.csv", 2⟩⟩)],
         [("id", ⟨"1", Field.number "id" true, ⟨"w.csv", 3⟩⟩),
          ("kind", ⟨"bl", Field.str "kind" true, ⟨"w.csv", 3⟩⟩)]] = .ok (pre, rest) ∧
        pre ++ rest =
          [[("id", ⟨"1", Field.number "id" true, ⟨"w.csv", 2⟩⟩)],
           [("id", ⟨"1", Field.number "id" true, ⟨"w.csv", 3⟩⟩),
            ("kind", ⟨"bl", Field.str "kind" true, ⟨"w.csv", 3⟩⟩)]] ∧
        (∀ x ∈ pre, (fun (row : LoadedRow) => row.length == 1) x = true) ∧
        (rest = [] ∨ ∃ x xs, rest = x :: xs ∧
          (fun (row : LoadedRow) => row.length == 1) x = false)) ∧
    (∃ loc, firstLoc
        [("id", (⟨"1", Field.number "id" true, ⟨"w.csv", 3⟩⟩ : LoadedField)),
         ("kind", ⟨"bl", Field.str "kind" true, ⟨"w.csv", 3⟩⟩)] = .ok loc ∧
      split_rows (purePred (fun row => row.length == 1))
        [[("id", ⟨"1", Field.number "id" true, ⟨"w.csv", 3⟩⟩),
          ("kind", ⟨"bl", Field.str "kind" true, ⟨"w.csv", 3⟩⟩)]] =
        .error (.parsing loc splitMsg)) :=
  ⟨(c3_split_rows_spec (fun row => row.length == 1) []).1 rfl,
   (c3_split_rows_spec (fun row => row.length == 1)
      [[("id", ⟨"1", Field.number "id" true, ⟨"w.csv", 2⟩⟩)],
       [("id", ⟨"1", Field.number "id" true, ⟨"w.csv", 3⟩⟩),
        ("kind", ⟨"bl", Field.str "kind" true, ⟨"w.csv", 3⟩⟩)]]).2.1
      [("id", ⟨"1", Field.number "id" true, ⟨"w.csv", 2⟩⟩)]
      [[("id", ⟨"1", Field.number "id" true, ⟨"w.csv", 3⟩⟩),
        ("kind", ⟨"bl", Field.str "kind" true, ⟨"w.csv", 3⟩⟩)]] rfl (by decide),
   (c3_split_rows_spec (fun row => row.length == 1)
      [[("id", ⟨"1", Field.number "id" true, ⟨"w.csv", 3⟩⟩),
        ("kind", ⟨"bl", Field.str "kind" true, ⟨"w.csv", 3⟩⟩)]]).2.2
      [("id", ⟨"1", Field.number "id" true, ⟨"w.csv", 3⟩⟩),
       ("kind", ⟨"bl", Field.str "kind" true, ⟨"w.csv", 3⟩⟩)] [] rfl (by decide) (by decide)⟩


/-! ### C2 -/

theorem group_rows_fuel_ok_spec (key : String) :
    ∀ (fuel : Nat) (rows : LoadedRows) (gs : List LoadedRows),
      group_rows_fuel key fuel rows = .ok gs →
        gs.flatten = rows ∧ (∀ g ∈ gs, g ≠ []) ∧
        (∀ g ∈ gs, ∃ r0 t v, g = r0 :: t ∧ headKeyVal key r0 = .ok v ∧
          ∀ r ∈ g, groupPred key v r = .ok true) := by
  intro fuel
  induction fuel with
  | zero =>
    intro rows gs h
    cases rows <;> simp only [group_rows_fuel] at h <;> cases h
  | succ fuel ih =>
    intro rows gs h
    cases rows with
    | nil => simp only [group_rows_fuel] at h; cases h
    | cons r0 rs =>
      simp only [group_rows_fuel] at h
      split at h
      · cases h
      · rename_i fld_val hkv
        split at h
        · cases h
        · rename_i hsplit
          have happ := split_rows_ok_append hsplit
          have hall := split_rows_ok_all hsplit
          obtain ⟨pre2, hhead⟩ := split_rows_ok_head hsplit
          rename_i chunk3 rest3
          by_cases hrest : rest3 = []
          · rw [if_pos hrest] at h
            cases h
            rw [hrest] at happ
            refine ⟨by simpa using happ, ?_, ?_⟩
            · intro g hg
              rw [List.mem_singleton] at hg
              subst hg
              rw [hhead]
              exact List.cons_ne_nil _ _
            · intro g hg
              rw [List.mem_singleton] at hg
              subst hg
              exact ⟨r0, pre2, fld_val, hhead, hkv, hall⟩
          · rw [if_neg hrest] at h
            split at h
            · cases h
            · rename_i more hmore
              cases h
              obtain ⟨hjoin, hne, hprop⟩ := ih _ more hmore
              refine ⟨?_, ?_, ?_⟩
              · simp only [List.flatten_cons]
                rw [hjoin]
                exact happ
              · intro g hg
                rcases List.mem_cons.mp hg with hg | hg
                · subst hg
                  rw [hhead]
                  exact List.cons_ne_nil _ _
                · exact hne g hg
              · intro g hg
                rcases List.mem_cons.mp hg with hg | hg
                · subst hg
                  exact ⟨r0, pre2, fld_val, hhead, hkv, hall⟩
                · exact hprop g hg

/-- C2 counterexample: the claim quantifies over every row list including
the empty one, but `group_rows` on an empty list raises `IndexError` from
`rest[0]` instead of returning an empty group list. -/
theorem c2_counterexample :
    group_rows "kind" ([] : LoadedRows) = .error .indexError ∧
    ¬ ∃ gs : List LoadedRows, group_rows "kind" ([] : LoadedRows) = .ok gs := by
  refine ⟨rfl, ?_⟩
  rintro ⟨gs, hgs⟩
  rw [show group_rows "kind" ([] : LoadedRows) = .error .indexError from rfl] at hgs
  exact Except.noConfusion hgs

/-- C2 (amended): whenever `group_rows(k, R)` returns a group list (it
raises on the empty list, and when a run's leading key fails to parse),
the groups concatenate in order to `R`, no group is empty, and within each
group every row's key value, parsed-or-defaulted to the group's key, equals
the group's key — the value parsed from the group's first row. -/
theorem c2_group_rows_ok_spec (key : String) (rows : LoadedRows)
    (gs : List LoadedRows) (h : group_rows key rows = .ok gs) :
    gs.flatten = rows ∧ (∀ g ∈ gs, g ≠ []) ∧
    (∀ g ∈ gs, ∃ r0 t v, g = r0 :: t ∧ headKeyVal key r0 = .ok v ∧
      ∀ r ∈ g, groupPred key v r = .ok true) :=
  group_rows_fuel_ok_spec key rows.length rows gs h

/-- C2 witness: a two-row input whose second row has an unparseable key
value (a blank required enum), which is defaulted to the group's key and
joins the group; the theorem is applied to the resulting single group. -/
theorem c2_witness :
    ∃ gs : List LoadedRows,
      group_rows "kind"
        [[("kind", ⟨"bl", Field.enum "kind" ["bl", "fw12"] true, ⟨"w.csv", 2⟩⟩),
          ("vl", ⟨"7", Field.number "vl" false, ⟨"w.csv", 2⟩⟩)],
         [("kind", ⟨"", Field.enum "kind" ["bl", "fw12"] true, ⟨"w.csv", 3⟩⟩),
          ("vl", ⟨"8", Field.number "vl" false, ⟨"w.csv", 3⟩⟩)]] = .ok gs ∧
      (gs.flatten =
        [[("kind", ⟨"bl", Field.enum "kind" ["bl", "fw12"] true, ⟨"w.csv", 2⟩⟩),
          ("vl", ⟨"7", Field.number "vl" false, ⟨"w.csv", 2⟩⟩)],
         [("kind", ⟨"", Field.enum "kind" ["bl", "fw12"] true, ⟨"w.csv", 3⟩⟩),
          ("vl", ⟨"8", Field.number "vl" false, ⟨"w.csv", 3⟩⟩)]] ∧
       (∀ g ∈ gs, g ≠ []) ∧
       (∀ g ∈ gs, ∃ r0 t v, g = r0 :: t ∧ headKeyVal "kind" r0 = .ok v ∧
         ∀ r ∈ g, groupPred "kind" v r = .ok true)) := by
  have h : group_rows "kind"
      [[("kind", ⟨"bl", Field.enum "kind" ["bl", "fw12"] true, ⟨"w.csv", 2⟩⟩),
        ("vl", ⟨"7", Field.number "vl" false, ⟨"w.csv", 2⟩⟩)],
       [("kind", ⟨"", Field.enum "kind" ["bl", "fw12"] true, ⟨"w.csv", 3⟩⟩),
        ("vl", ⟨"8", Field.number "vl" false, ⟨"w.csv", 3⟩⟩)]] =
      .ok [[[("kind", ⟨"bl", Field.enum "kind" ["bl", "fw12"] true, ⟨"w.csv", 2⟩⟩),
          ("vl", ⟨"7", Field.number "vl" false, ⟨"w.csv", 2⟩⟩)],
         [("kind", ⟨"", Field.enum "kind" ["bl", "fw12"] true, ⟨"w.csv", 3⟩⟩),
          ("vl", ⟨"8", Field.number "vl" false, ⟨"w.csv", 3⟩⟩)]]] := by decide
  exact ⟨_, h, c2_group_rows_ok_spec "kind" _ _ h⟩


/-! ### Error classification: no function below ever produces the
"Leftover rows" error, except the one branch of `cases` itself -/

theorem notLeftover_firstLoc {row : LoadedRow} {e : CaseError}
    (h : firstLoc row = .error e) : notLeftover e := by
  cases row with
  | nil =>
    simp only [firstLoc] at h
    cases h
    intro loc
    simp
  | cons c cs => simp [firstLoc] at h

theorem notLeftover_headKeyVal {key : String} {row : LoadedRow} {e : CaseError}
    (h : headKeyVal key row = .error e) : notLeftover e := by
  unfold headKeyVal at h
  split at h
  · cases h
    intro loc
    simp
  · split at h
    · cases h
    · cases h
      intro loc
      simp

theorem notLeftover_matches_case {cid : Option FieldValue} {row : LoadedRow}
    {e : CaseError} (h : matches_case cid row = .error e) : notLeftover e := by
  unfold matches_case at h
  split at h
  · cases h
    intro loc
    simp
  · cases h

theorem notLeftover_groupPred {key : String} {v : Option FieldValue}
    {row : LoadedRow} {e : CaseError} (h : groupPred key v row = .error e) :
    notLeftover e := by
  unfold groupPred at h
  split at h
  · cases h
    intro loc
    simp
  · cases h

theorem takeWhileE_error {pred : LoadedRow → Except CaseError Bool} :
    ∀ {rows : LoadedRows} {e : CaseError}, takeWhileE pred rows = .error e →
      ∃ r ∈ rows, pred r = .error e := by
  intro rows
  induction rows with
  | nil => intro e h; simp [takeWhileE] at h
  | cons r rs ih =>
    intro e h
    simp only [takeWhileE] at h
    split at h
    · rename_i hp
      cases h
      exact ⟨r, List.mem_cons_self r rs, hp⟩
    · cases h
    · split at h
      · rename_i heq
        cases h
        obtain ⟨x, hx, hpx⟩ := ih heq
        exact ⟨x, List.mem_cons_of_mem r hx, hpx⟩
      · cases h

theorem notLeftover_split_rows {pred : LoadedRow → Except CaseError Bool}
    {rows : LoadedRows} {e : CaseError}
    (hpred : ∀ r e', pred r = .error e' → notLeftover e')
    (h : split_rows pred rows = .error e) : notLeftover e := by
  cases rows with
  | nil => simp [split_rows] at h
  | cons r rs =>
    simp only [split_rows] at h
    split at h
    · rename_i hp
      cases h
      exact hpred r e hp
    · split at h
      · rename_i hfl
        cases h
        exact notLeftover_firstLoc hfl
      · cases h
        intro loc hcontra
        injection hcontra with h1 h2
        exact absurd h2 (by decide)
    · by_cases hrs : rs = []
      · rw [if_pos hrs] at h
        cases h
      · rw [if_neg hrs] at h
        obtain ⟨x, _, hpx⟩ := takeWhileE_error h
        exact hpred x e hpx

theorem notLeftover_group_rows_fuel {key : String} :
    ∀ {fuel : Nat} {rows : LoadedRows} {e : CaseError},
      group_rows_fuel key fuel rows = .error e → notLeftover e := by
  intro fuel
  induction fuel with
  | zero =>
    intro rows e h
    cases rows <;> simp only [group_rows_fuel] at h <;>
      (cases h; intro loc; simp)
  | succ fuel ih =>
    intro rows e h
    cases rows with
    | nil =>
      simp only [group_rows_fuel] at h
      cases h
      intro loc
      simp
    | cons r0 rs =>
      simp only [group_rows_fuel] at h
      split at h
      · rename_i hkv
        cases h
        exact notLeftover_headKeyVal hkv
      · split at h
        · rename_i hsp
          cases h
          exact notLeftover_split_rows (fun r e' he' => notLeftover_groupPred he') hsp
        · rename_i chunk3 rest3 hsp
          by_cases hrest : rest3 = []
          · rw [if_pos hrest] at h
            cases h
          · rw [if_neg hrest] at h
            split at h
            · rename_i hrec
              cases h
              exact ih hrec
            · cases h

theorem notLeftover_group_rows {key : String} {rows : LoadedRows} {e : CaseError}
    (h : group_rows key rows = .error e) : notLeftover e :=
  notLeftover_group_rows_fuel h

theorem notLeftover_get_named_fields {row : LoadedRow} :
    ∀ {names : List String} {e : CaseError},
      get_named_fields names row = .error e → notLeftover e := by
  intro names
  induction names with
  | nil => intro e h; simp [get_named_fields] at h
  | cons n ns ih =>
    intro e h
    simp only [get_named_fields] at h
    split at h
    · rename_i hn
      cases h
      exact notLeftover_headKeyVal hn
    · split at h
      · rename_i hrec
        cases h
        exact ih hrec
      · cases h

theorem notLeftover_mapE {α β : Type} {f : α → Except CaseError β}
    (hf : ∀ x e', f x = .error e' → notLeftover e') :
    ∀ {l : List α} {e : CaseError}, mapE f l = .error e → notLeftover e := by
  intro l
  induction l with
  | nil => intro e h; simp [mapE] at h
  | cons x xs ih =>
    intro e h
    simp only [mapE] at h
    split at h
    · rename_i hx
      cases h
      exact hf x e hx
    · split at h
      · rename_i hrec
        cases h
        exact ih hrec
      · cases h

theorem notLeftover_checkRowIds {cid : Option FieldValue} :
    ∀ {rows : LoadedRows} {e : CaseError},
      checkRowIds cid rows = .error e → notLeftover e := by
  intro rows
  induction rows with
  | nil => intro e h; simp [checkRowIds] at h
  | cons r rs ih =>
    intro e h
    simp only [checkRowIds] at h
    split at h
    · cases h
      intro loc
      simp
    · split at h
      · exact ih h
      · split at h
        · rename_i hfl
          cases h
          exact notLeftover_firstLoc hfl
        · cases h
          intro loc hcontra
          injection hcontra with h1 h2
          exact absurd h2 (by decide)

theorem notLeftover_parseClinicalGroup {g : LoadedRows} {e : CaseError}
    (h : parseClinicalGroup g = .error e) : notLeftover e := by
  unfold parseClinicalGroup at h
  split at h
  · cases h
    intro loc
    simp
  · split at h
    · rename_i hc
      cases h
      exact notLeftover_get_named_fields hc
    · split at h
      · rename_i hs
        cases h
        exact notLeftover_mapE (fun x e' he' => notLeftover_get_named_fields he') hs
      · cases h

theorem notLeftover_parse_case {caseRows : LoadedRows} {e : CaseError}
    (h : parse_case caseRows = .error e) : notLeftover e := by
  unfold parse_case at h
  split at h
  · cases h
    intro loc
    simp
  · split at h
    · rename_i hkv
      cases h
      exact notLeftover_headKeyVal hkv
    · split at h
      · split at h
        · rename_i hfl
          cases h
          exact notLeftover_firstLoc hfl
        · cases h
          intro loc hcontra
          injection hcontra with h1 h2
          exact absurd h2 (by decide)
      · split at h
        · rename_i hck
          cases h
          exact notLeftover_checkRowIds hck
        · split at h
          · rename_i hpp
            cases h
            unfold parse_participant at hpp
            split at hpp
            · rename_i hid
              cases hpp
              exact notLeftover_headKeyVal hid
            · exact notLeftover_get_named_fields hpp
          · split at h
            · rename_i hpb
              cases h
              exact notLeftover_get_named_fields hpb
            · split at h
              · rename_i hgr
                cases h
                exact notLeftover_group_rows hgr
              · split at h
                · rename_i hmE
                  cases h
                  exact notLeftover_mapE
                    (fun x e' he' => notLeftover_parseClinicalGroup he') hmE
                · cases h

theorem notLeftover_case_rows {rows : LoadedRows} {e : CaseError}
    (h : case_rows rows = .error e) : notLeftover e := by
  unfold case_rows at h
  split at h
  · cases h
    intro loc
    simp
  · split at h
    · rename_i hkv
      cases h
      exact notLeftover_headKeyVal hkv
    · split at h
      · split at h
        · rename_i hfl
          cases h
          exact notLeftover_firstLoc hfl
        · cases h
          intro loc hcontra
          injection hcontra with h1 h2
          exact absurd h2 (by decide)
      · exact notLeftover_split_rows
          (fun r e' he' => notLeftover_matches_case he') h

theorem notLeftover_get_one_case {rows : LoadedRows} {e : CaseError}
    (h : get_one_case rows = .error e) : notLeftover e := by
  cases rows with
  | nil => simp [get_one_case] at h
  | cons r rs =>
    simp only [get_one_case] at h
    split at h
    · rename_i hcr
      cases h
      exact notLeftover_case_rows hcr
    · split at h
      · rename_i hpc
        cases h
        exact notLeftover_parse_case hpc
      · cases h

theorem get_one_case_none {rows rest : LoadedRows}
    (h : get_one_case rows = .ok (none, rest)) : rows = [] ∧ rest = [] := by
  cases rows with
  | nil =>
    simp only [get_one_case] at h
    cases h
    exact ⟨rfl, rfl⟩
  | cons r rs =>
    simp only [get_one_case] at h
    split at h
    · cases h
    · split at h
      · cases h
      · simp at h

theorem notLeftover_cases_fuel :
    ∀ {fuel : Nat} {rows : LoadedRows} {e : CaseError},
      cases_fuel fuel rows = .error e → notLeftover e := by
  intro fuel
  induction fuel with
  | zero =>
    intro rows e h
    simp only [cases_fuel] at h
    cases h
    intro loc
    simp
  | succ fuel ih =>
    intro rows e h
    simp only [cases_fuel] at h
    split at h
    · rename_i hg
      cases h
      exact notLeftover_get_one_case hg
    · rename_i hg
      split at h
      · cases h
      · exact absurd (get_one_case_none hg).2 (by simp)
    · split at h
      · rename_i hrec
        cases h
        exact ih hrec
      · cases h


/-! ### C8 -/

theorem case_rows_ok {r0 : LoadedRow} {rs pre rest : LoadedRows}
    (h : case_rows (r0 :: rs) = .ok (pre, rest)) :
    (∃ pre2, pre = r0 :: pre2) ∧ pre ++ rest = r0 :: rs := by
  unfold case_rows at h
  cases hkv : headKeyVal "id" r0 with
  | error e =>
    simp only [hkv] at h
    cases h
  | ok fv =>
    simp only [hkv] at h
    by_cases hn : fv = none
    · rw [if_pos hn] at h
      split at h <;> cases h
    · rw [if_neg hn] at h
      exact ⟨split_rows_ok_head h, split_rows_ok_append h⟩

theorem get_one_case_some {rows rest : LoadedRows} {c : Case}
    (h : get_one_case rows = .ok (some c, rest)) :
    ∃ cr, cr ≠ [] ∧ cr ++ rest = rows ∧ parse_case cr = .ok c := by
  cases rows with
  | nil => simp [get_one_case] at h
  | cons r rs =>
    simp only [get_one_case] at h
    split at h
    · cases h
    · rename_i cr rest0 hcr
      split at h
      · cases h
      · rename_i c0 hpc
        cases h
        obtain ⟨⟨pre2, hhead⟩, happ⟩ := case_rows_ok hcr
        exact ⟨cr, by rw [hhead]; exact List.cons_ne_nil _ _, happ, hpc⟩

theorem cases_fuel_ok_chunks :
    ∀ {fuel : Nat} {rows : LoadedRows} {cs : List Case},
      cases_fuel fuel rows = .ok cs →
      ∃ chunks : List LoadedRows, chunks.flatten = rows ∧
        (∀ ch ∈ chunks, ch ≠ []) ∧ mapE parse_case chunks = .ok cs := by
  intro fuel
  induction fuel with
  | zero => intro rows cs h; simp [cases_fuel] at h
  | succ fuel ih =>
    intro rows cs h
    simp only [cases_fuel] at h
    split at h
    · cases h
    · rename_i hg
      split at h
      · cases h
        obtain ⟨hrows, -⟩ := get_one_case_none hg
        exact ⟨[], by simp [hrows], by simp, by simp [mapE]⟩
      · split at h <;> cases h
    · rename_i c rest hg
      split at h
      · cases h
      · rename_i cs' hrec
        cases h
        obtain ⟨chunks, hfl, hne, hmE⟩ := ih hrec
        obtain ⟨cr, hcrne, hcrapp, hcrpc⟩ := get_one_case_some hg
        refine ⟨cr :: chunks, ?_, ?_, ?_⟩
        · simp only [List.flatten_cons]
          rw [hfl]
          exact hcrapp
        · intro ch hch
          rcases List.mem_cons.mp hch with hch | hch
          · subst hch; exact hcrne
          · exact hne ch hch
        · simp only [mapE, hcrpc, hmE]

/-- C8 counterexample: the claim states that `case_rows` returns a
non-empty matching prefix for every non-empty row list whose first row has
a parseable, non-null case id.  A row whose id cell is the string "nan" in
a numeric id field parses to the float NaN — parseable and non-null — yet
NaN is not equal to itself under Python `==`, so the first row fails to
match its own case id and `case_rows` raises the located
"predicate was invalid on first row" error instead of returning. -/
theorem c8_counterexample :
    (LoadedField.parseCell ⟨"nan", Field.number "id" true, ⟨"n.csv", 2⟩⟩ =
      .ok (some (.float .nan))) ∧
    case_rows [[("id", ⟨"nan", Field.number "id" true, ⟨"n.csv", 2⟩⟩)]] =
      .error (.parsing ⟨"n.csv", 2⟩ splitMsg) :=
  ⟨by decide, by decide⟩

/-- C8 (amended): for a non-empty row list whose first row's id cell
parses to a non-null value that is equal to itself under Python `==` (true
of every value except a float NaN), and in which every row has an id cell,
`case_rows` returns a non-empty prefix starting with the first row whose
concatenation with the remainder is the input; `get_one_case` returns no
case only on an empty input with an empty remainder; every successful run
of `cases` partitions the input rows into the non-empty per-case chunks
that were parsed, in order (so every row is assigned to some case); and
`cases` never raises the "Leftover rows while parsing cases" error — that
branch is unreachable.  (`cases` is a total function of its fuel-bounded
loop, whose fuel is proved sufficient, so termination holds by
construction.) -/
theorem c8_cases_driver_spec (rows : LoadedRows) :
    (∀ r0 rs lf0 v, rows = r0 :: rs →
      alookup r0 "id" = some lf0 → lf0.parseCell = .ok (some v) →
      v.pyEq v = true → (∀ r ∈ rows, (alookup r "id").isSome = true) →
      ∃ pre2 rest, case_rows rows = .ok (r0 :: pre2, rest) ∧
        (r0 :: pre2) ++ rest = rows) ∧
    (∀ rest, get_one_case rows = .ok (none, rest) → rows = [] ∧ rest = []) ∧
    (∀ cs, cases rows = .ok cs →
      ∃ chunks : List LoadedRows, chunks.flatten = rows ∧
        (∀ ch ∈ chunks, ch ≠ []) ∧ mapE parse_case chunks = .ok cs) ∧
    (∀ loc, cases rows ≠ .error (.parsing loc leftoverMsg)) := by
  refine ⟨?_, ?_, ?_, ?_⟩
  · intro r0 rs lf0 v hrows hlf hpv hself htot
    subst hrows
    have hkv : headKeyVal "id" r0 = .ok (some v) := by
      unfold headKeyVal
      simp only [hlf, hpv]
    have hpred0 : matches_case (some v) r0 = .ok true := by
      unfold matches_case
      simp only [hlf, hpv]
      simp [optPyEq, hself]
    have htotb : ∀ x ∈ rs, ∃ b, matches_case (some v) x = .ok b := by
      intro x hx
      have hx2 := htot x (List.mem_cons_of_mem _ hx)
      cases halx : alookup x "id" with
      | none => rw [halx] at hx2; simp at hx2
      | some lf =>
        exact ⟨_, by unfold matches_case; rw [halx]⟩
    obtain ⟨pre, rest, hsp⟩ := split_rows_total_of_true hpred0 htotb
    obtain ⟨pre2, hhead⟩ := split_rows_ok_head hsp
    have happ := split_rows_ok_append hsp
    refine ⟨pre2, rest, ?_, by rw [← hhead]; exact happ⟩
    unfold case_rows
    simp only [hkv]
    rw [if_neg (by simp)]
    rw [hsp, hhead]
  · intro rest h
    exact get_one_case_none h
  · intro cs h
    unfold cases at h
    exact cases_fuel_ok_chunks h
  · intro loc hcontra
    unfold cases at hcontra
    exact notLeftover_cases_fuel hcontra loc rfl

/-- C8 witness: the theorem applied to a one-row input with numeric id
"7", to the empty input, and to the leftover-freeness of the one-row
input. -/
theorem c8_witness :
    (∃ pre2 rest,
      case_rows [[("id", ⟨"7", Field.number "id" true, ⟨"n.csv", 2⟩⟩)]] =
        .ok ([("id", ⟨"7", Field.number "id" true, ⟨"n.csv", 2⟩⟩)] :: pre2, rest) ∧
      ([("id", (⟨"7", Field.number "id" true, ⟨"n.csv", 2⟩⟩ : LoadedField))] :: pre2) ++ rest =
        [[("id", ⟨"7", Field.number "id" true, ⟨"n.csv", 2⟩⟩)]]) ∧
    (∀ rest, get_one_case ([] : LoadedRows) = .ok (none, rest) →
      ([] : LoadedRows) = [] ∧ rest = []) ∧
    (∀ loc, cases [[("id", ⟨"7", Field.number "id" true, ⟨"n.csv", 2⟩⟩)]] ≠
      .error (.parsing loc leftoverMsg)) :=
  ⟨(c8_cases_driver_spec [[("id", ⟨"7", Field.number "id" true, ⟨"n.csv", 2⟩⟩)]]).1
      [("id", ⟨"7", Field.number "id" true, ⟨"n.csv", 2⟩⟩)] []
      ⟨"7", Field.number "id" true, ⟨"n.csv", 2⟩⟩ (.int 7)
      rfl (by decide) (by decide) (by decide) (by decide),
   (c8_cases_driver_spec []).2.1,
   (c8_cases_driver_spec [[("id", ⟨"7", Field.number "id" true, ⟨"n.csv", 2⟩⟩)]]).2.2.2⟩


/-! ### C4 -/

theorem klookup_aupdate_self {κ α : Type} [DecidableEq κ]
    (l : List (κ × α)) (k : κ) (v : α) : klookup (aupdate l k v) k = some v := by
  induction l with
  | nil => simp [aupdate, klookup]
  | cons p rest ih =>
    by_cases hk : p.1 = k
    · simp [aupdate, hk, klookup]
    · obtain ⟨k', v'⟩ := p
      simp only at hk
      simp [aupdate, hk, klookup, ih]

theorem klookup_aupdate_ne {κ α : Type} [DecidableEq κ]
    (l : List (κ × α)) (k k' : κ) (v : α) (hk : k' ≠ k) :
    klookup (aupdate l k v) k' = klookup l k' := by
  have hk2 : ¬(k = k') := fun h => hk h.symm
  induction l with
  | nil => simp [aupdate, klookup, hk2]
  | cons p rest ih =>
    obtain ⟨k0, v0⟩ := p
    by_cases h0 : k0 = k
    · subst h0
      simp [aupdate, klookup, hk2]
    · simp [aupdate, h0, klookup, ih]

theorem klookup_mem {κ α : Type} [DecidableEq κ] :
    ∀ {l : List (κ × α)} {k : κ} {v : α}, klookup l k = some v → (k, v) ∈ l := by
  intro l
  induction l with
  | nil => intro k v h; simp [klookup] at h
  | cons p rest ih =>
    intro k v h
    obtain ⟨k0, v0⟩ := p
    simp only [klookup] at h
    by_cases h0 : k0 = k
    · rw [if_pos h0] at h
      cases h
      subst h0
      exact List.mem_cons_self _ _
    · rw [if_neg h0] at h
      exact List.mem_cons_of_mem _ (ih h)

/-- C4 counterexample: the claim says no registry operation, `add`
included, ever reassigns an identifier the registry has already associated
with a regimen.  But `add` overwrites the storage slot unconditionally:
adding the same regimen twice (with no explicit id, as `get_or_create_id`
would not do) mints a second fresh identifier and replaces the first — the
regimen's associated identifier changes from 0 to 1. -/
theorem c4_counterexample :
    klookup ((RegimenRegistry.add (fun r => r) ⟨[]⟩ (7 : Int) none ⟨0⟩).2.1.storage)
      7 = some (0, 7) ∧
    klookup (((RegimenRegistry.add (fun r => r) ⟨[]⟩ (7 : Int) none ⟨0⟩).2.1.add
        (fun r => r) (7 : Int) none
        (RegimenRegistry.add (fun r => r) ⟨[]⟩ (7 : Int) none ⟨0⟩).2.2).2.1.storage)
      7 = some (1, 7) ∧
    (0 : Nat) ≠ 1 := by
  refine ⟨rfl, rfl, by decide⟩

/-- C4 (amended): within one registry, `get_or_create_id` never reassigns
an existing association, returns the same identifier for two regimens with
equal canonical hash, and returns distinct identifiers for regimens with
distinct hashes — provided the registry's stored identifiers are below the
fresh-id supply (uuid4 freshness) and pairwise distinct.  `contains` and
`get` do not mutate the registry (they are read-only by construction).
A direct `add` of an already-registered regimen, however, overwrites the
stored identifier. -/
theorem c4_get_or_create_id_stable {R : Type} (hashR : R → Int)
    (reg : RegimenRegistry R) (gen : UuidGen) (r1 r2 : R)
    (hfresh : ∀ p ∈ reg.storage, p.2.1 < gen.next)
    (hinj : ∀ p ∈ reg.storage, ∀ q ∈ reg.storage, p.2.1 = q.2.1 → p.1 = q.1) :
    (∀ hsh pr, klookup reg.storage hsh = some pr →
      klookup (reg.get_or_create_id hashR r1 gen).2.1.storage hsh = some pr) ∧
    (hashR r1 = hashR r2 →
      ((reg.get_or_create_id hashR r1 gen).2.1.get_or_create_id hashR r2
        (reg.get_or_create_id hashR r1 gen).2.2).1 =
      (reg.get_or_create_id hashR r1 gen).1) ∧
    (hashR r1 ≠ hashR r2 →
      ((reg.get_or_create_id hashR r1 gen).2.1.get_or_create_id hashR r2
        (reg.get_or_create_id hashR r1 gen).2.2).1 ≠
      (reg.get_or_create_id hashR r1 gen).1) := by
  cases h1 : klookup reg.storage (hashR r1) with
  | some pr1 =>
    obtain ⟨i1, s1⟩ := pr1
    have hi1 : i1 < gen.next := hfresh _ (klookup_mem h1)
    have hout1 : reg.get_or_create_id hashR r1 gen = (i1, reg, gen) := by
      unfold RegimenRegistry.get_or_create_id RegimenRegistry.get
      simp only [h1]
    refine ⟨?_, ?_, ?_⟩
    · intro hsh pr h
      rw [hout1]
      exact h
    · intro heq
      rw [hout1]
      unfold RegimenRegistry.get_or_create_id RegimenRegistry.get
      rw [← heq]
      simp only [h1]
    · intro hne
      rw [hout1]
      unfold RegimenRegistry.get_or_create_id RegimenRegistry.get
        RegimenRegistry.add uuid4
      cases h2 : klookup reg.storage (hashR r2) with
      | some pr2 =>
        obtain ⟨i2, s2⟩ := pr2
        have hmem2 := klookup_mem h2
        simp only
        intro hii
        exact hne (hinj _ (klookup_mem h1) _ hmem2 hii.symm)
      | none =>
        simp only
        intro hii
        omega
  | none =>
    have hout1 : reg.get_or_create_id hashR r1 gen =
        (gen.next, ⟨aupdate reg.storage (hashR r1) (gen.next, r1)⟩, ⟨gen.next + 1⟩) := by
      unfold RegimenRegistry.get_or_create_id RegimenRegistry.get
        RegimenRegistry.add uuid4
      simp only [h1]
    refine ⟨?_, ?_, ?_⟩
    · intro hsh pr h
      rw [hout1]
      by_cases hh : hsh = hashR r1
      · rw [hh] at h
        rw [h1] at h
        cases h
      · simpa using (klookup_aupdate_ne reg.storage (hashR r1) hsh (gen.next, r1) hh).trans h
    · intro heq
      rw [hout1]
      unfold RegimenRegistry.get_or_create_id RegimenRegistry.get
      rw [← heq]
      simp only [klookup_aupdate_self]
    · intro hne
      rw [hout1]
      unfold RegimenRegistry.get_or_create_id RegimenRegistry.get
        RegimenRegistry.add uuid4
      rw [klookup_aupdate_ne _ _ _ _ (fun h => hne h.symm)]
      cases h2 : klookup reg.storage (hashR r2) with
      | some pr2 =>
        obtain ⟨i2, s2⟩ := pr2
        have hi2 : i2 < gen.next := hfresh _ (klookup_mem h2)
        simp only
        intro hii
        omega
      | none =>
        simp only
        intro hii
        omega

/-- C4 witness: the amended theorem applied to an empty integer registry
with the identity hash, at regimens 5 and 5 (same hash) and 5 and 9
(different hashes). -/
theorem c4_witness :
    ((∀ hsh pr, klookup (RegimenRegistry.storage (R := Int) ⟨[]⟩) hsh = some pr →
      klookup (RegimenRegistry.get_or_create_id (fun r => r) ⟨[]⟩ (5 : Int) ⟨0⟩).2.1.storage
        hsh = some pr) ∧
    ((fun r => r) (5 : Int) = (fun r => r) (5 : Int) →
      ((RegimenRegistry.get_or_create_id (fun r => r) ⟨[]⟩ (5 : Int) ⟨0⟩).2.1.get_or_create_id
        (fun r => r) (5 : Int)
        (RegimenRegistry.get_or_create_id (fun r => r) ⟨[]⟩ (5 : Int) ⟨0⟩).2.2).1 =
      (RegimenRegistry.get_or_create_id (fun r => r) ⟨[]⟩ (5 : Int) ⟨0⟩).1)) ∧
    ((fun r => r) (5 : Int) ≠ (fun r => r) (9 : Int) →
      ((RegimenRegistry.get_or_create_id (fun r => r) ⟨[]⟩ (5 : Int) ⟨0⟩).2.1.get_or_create_id
        (fun r => r) (9 : Int)
        (RegimenRegistry.get_or_create_id (fun r => r) ⟨[]⟩ (5 : Int) ⟨0⟩).2.2).1 ≠
      (RegimenRegistry.get_or_create_id (fun r => r) ⟨[]⟩ (5 : Int) ⟨0⟩).1) :=
  ⟨⟨(c4_get_or_create_id_stable (fun r => r) ⟨[]⟩ ⟨0⟩ 5 5 (by simp) (by simp)).1,
    (c4_get_or_create_id_stable (fun r => r) ⟨[]⟩ ⟨0⟩ 5 5 (by simp) (by simp)).2.1⟩,
   (c4_get_or_create_id_stable (fun r => r) ⟨[]⟩ ⟨0⟩ 5 9 (by simp) (by simp)).2.2⟩


/-! ### C5, C9, C10 -/

theorem alookup_aupdate_self (l : List (String × SeqRecord)) (k : String)
    (v : SeqRecord) : alookup (aupdate l k v) k = some v := by
  induction l with
  | nil => simp [aupdate, alookup]
  | cons p rest ih =>
    obtain ⟨k0, v0⟩ := p
    by_cases h0 : k0 = k
    · subst h0
      simp [aupdate, alookup]
    · simp [aupdate, h0, alookup, ih]

theorem alookup_aupdate_ne (l : List (String × SeqRecord)) (k k' : String)
    (v : SeqRecord) (hk : k' ≠ k) :
    alookup (aupdate l k v) k' = alookup l k' := by
  have hk2 : ¬(k = k') := fun h => hk h.symm
  induction l with
  | nil => simp [aupdate, alookup, hk2]
  | cons p rest ih =>
    obtain ⟨k0, v0⟩ := p
    by_cases h0 : k0 = k
    · subst h0
      simp [aupdate, alookup, hk2]
    · simp [aupdate, h0, alookup, ih]

/-- C5: duplicate detection of the sequence registry: `check_in_sequence`
fails exactly when the record's `(name, sequence)` hash was already seen;
two records with the same name but different content have different hashes
and are both accepted from a fresh registry; a colliding record is
rejected with the duplicate error and the registry is left exactly as it
was — nothing is overwritten. -/
theorem c5_sequence_dedup (reg : SequenceRegistry) (r r1 r2 : SeqRecord)
    (_hname : r1.name = r2.name) (hseq : r1.seq ≠ r2.seq) :
    ((∃ m, reg.check_in_sequence r = .error m) ↔ hash_key r ∈ reg.hash_store) ∧
    hash_key r1 ≠ hash_key r2 ∧
    (SequenceRegistry.empty.add_seqs [r1, r2]).2 = none ∧
    (hash_key r ∈ reg.hash_store →
      reg.add_seqs [r] = (reg, some ("Duplicate sequence: name='" ++ r.name ++ "'"))) := by
  have hne : hash_key r2 ≠ hash_key r1 := by
    intro h
    apply hseq
    have := congrArg Prod.snd h
    simpa [hash_key] using this.symm
  refine ⟨?_, fun h => hne h.symm, ?_, ?_⟩
  · by_cases hmem : hash_key r ∈ reg.hash_store
    · simp [SequenceRegistry.check_in_sequence, hmem]
    · simp [SequenceRegistry.check_in_sequence, hmem]
  · simp [SequenceRegistry.add_seqs, SequenceRegistry.check_in_sequence,
      SequenceRegistry.empty, hne]
  · intro hmem
    simp [SequenceRegistry.add_seqs, SequenceRegistry.check_in_sequence, hmem]

/-- C5 witness: a registry that has already seen `("nm", "gatc")` rejects a
record with that name and content; two records named "nm" with different
content are both accepted from a fresh registry. -/
theorem c5_witness :
    ((∃ m, SequenceRegistry.check_in_sequence ⟨[], [("nm", "gatc")]⟩ ⟨"id1", "nm", "gatc"⟩ =
        .error m) ↔ hash_key ⟨"id1", "nm", "gatc"⟩ ∈ [("nm", "gatc")]) ∧
    hash_key (⟨"a", "nm", "aaaa"⟩ : SeqRecord) ≠ hash_key (⟨"b", "nm", "cccc"⟩ : SeqRecord) ∧
    (SequenceRegistry.empty.add_seqs [⟨"a", "nm", "aaaa"⟩, ⟨"b", "nm", "cccc"⟩]).2 = none ∧
    (hash_key (⟨"id1", "nm", "gatc"⟩ : SeqRecord) ∈ [("nm", "gatc")] →
      SequenceRegistry.add_seqs ⟨[], [("nm", "gatc")]⟩ [⟨"id1", "nm", "gatc"⟩] =
        (⟨[], [("nm", "gatc")]⟩,
         some ("Duplicate sequence: name='" ++ "nm" ++ "'"))) :=
  c5_sequence_dedup ⟨[], [("nm", "gatc")]⟩ ⟨"id1", "nm", "gatc"⟩
    ⟨"a", "nm", "aaaa"⟩ ⟨"b", "nm", "cccc"⟩ (by decide) (by decide)

theorem add_seqs_partial_aux (d : SeqRecord) (suf : List SeqRecord) :
    ∀ (pre : List SeqRecord) (reg0 : SequenceRegistry),
      pre.Pairwise (fun a b => hash_key a ≠ hash_key b) →
      pre.Pairwise (fun a b => id_function a ≠ id_function b) →
      (∀ r ∈ pre, hash_key r ∉ reg0.hash_store) →
      (hash_key d ∈ reg0.hash_store ∨ ∃ r ∈ pre, hash_key r = hash_key d) →
      ∃ regF, reg0.add_seqs (pre ++ d :: suf) =
          (regF, some ("Duplicate sequence: name='" ++ d.name ++ "'")) ∧
        regF.hash_store = reg0.hash_store ++ pre.map hash_key ∧
        (∀ r ∈ pre, regF.getSeq (id_function r) = .ok r) ∧
        (∀ i x, alookup reg0.seq_store i = some x →
          (∀ r ∈ pre, id_function r ≠ i) → alookup regF.seq_store i = some x) := by
  intro pre
  induction pre with
  | nil =>
    intro reg0 _ _ _ hdup
    have hmem : hash_key d ∈ reg0.hash_store := by
      rcases hdup with h | ⟨r, hr, _⟩
      · exact h
      · cases hr
    refine ⟨reg0, ?_, by simp, ?_, ?_⟩
    · simp [SequenceRegistry.add_seqs, SequenceRegistry.check_in_sequence, hmem]
    · intro r hr
      cases hr
    · intro i x hx _
      exact hx
  | cons p pre' ih =>
    intro reg0 hhashes hids hnew hdup
    have hpnew : hash_key p ∉ reg0.hash_store := hnew p (List.mem_cons_self _ _)
    have hphash : ∀ r ∈ pre', hash_key p ≠ hash_key r :=
      fun r hr => (List.pairwise_cons.mp hhashes).1 r hr
    have hpid : ∀ r ∈ pre', id_function p ≠ id_function r :=
      fun r hr => (List.pairwise_cons.mp hids).1 r hr
    set reg1 : SequenceRegistry :=
      ⟨aupdate reg0.seq_store (id_function p) p,
       reg0.hash_store ++ [hash_key p]⟩ with hreg1
    have hnew' : ∀ r ∈ pre', hash_key r ∉ reg1.hash_store := by
      intro r hr
      simp only [hreg1, List.mem_append, List.mem_singleton]
      push_neg
      exact ⟨hnew r (List.mem_cons_of_mem _ hr), fun h => hphash r hr h.symm⟩
    have hdup' : hash_key d ∈ reg1.hash_store ∨ ∃ r ∈ pre', hash_key r = hash_key d := by
      rcases hdup with h | ⟨r, hr, hrd⟩
      · exact Or.inl (by simp [hreg1, h])
      · rcases List.mem_cons.mp hr with hr | hr
        · subst hr
          exact Or.inl (by simp [hreg1, hrd])
        · exact Or.inr ⟨r, hr, hrd⟩
    obtain ⟨regF, heq, hhash, hget, hpres⟩ :=
      ih reg1 (List.pairwise_cons.mp hhashes).2 (List.pairwise_cons.mp hids).2 hnew' hdup'
    refine ⟨regF, ?_, ?_, ?_, ?_⟩
    · rw [List.cons_append]
      simp only [SequenceRegistry.add_seqs, SequenceRegistry.check_in_sequence]
      rw [if_neg hpnew]
      exact heq
    · rw [hhash]
      simp [hreg1]
    · intro r hr
      rcases List.mem_cons.mp hr with hr | hr
      · subst hr
        have hstart : alookup reg1.seq_store (id_function r) = some r := by
          simp only [hreg1]
          exact alookup_aupdate_self _ _ _
        have hfinal := hpres (id_function r) r hstart
          (fun q hq hqi => hpid q hq hqi.symm)
        unfold SequenceRegistry.getSeq
        rw [hfinal]
      · exact hget r hr
    · intro i x hx hids2
      have hx1 : alookup reg1.seq_store i = some x := by
        simp only [hreg1]
        rw [alookup_aupdate_ne _ _ _ _
          (fun h => hids2 p (List.mem_cons_self _ _) h.symm)]
        exact hx
      exact hpres i x hx1 (fun r hr => hids2 r (List.mem_cons_of_mem _ hr))

/-- C9: `add_seqs` is not atomic on error.  When the input is a block of
fresh records followed by a duplicate, the call returns the duplicate
error, yet every record before the duplicate has been checked in (the hash
store has grown by exactly their hashes) and remains registered and
retrievable via `get`; the registry is not restored to its pre-call
state. -/
theorem c9_add_seqs_not_atomic (reg0 : SequenceRegistry) (pre : List SeqRecord)
    (d : SeqRecord) (suf : List SeqRecord)
    (hhashes : pre.Pairwise (fun a b => hash_key a ≠ hash_key b))
    (hids : pre.Pairwise (fun a b => id_function a ≠ id_function b))
    (hnew : ∀ r ∈ pre, hash_key r ∉ reg0.hash_store)
    (hdup : hash_key d ∈ reg0.hash_store ∨ ∃ r ∈ pre, hash_key r = hash_key d) :
    ∃ regF, reg0.add_seqs (pre ++ d :: suf) =
        (regF, some ("Duplicate sequence: name='" ++ d.name ++ "'")) ∧
      regF.hash_store = reg0.hash_store ++ pre.map hash_key ∧
      (∀ r ∈ pre, regF.getSeq (id_function r) = .ok r) ∧
      (pre ≠ [] → regF ≠ reg0) := by
  obtain ⟨regF, heq, hhash, hget, -⟩ :=
    add_seqs_partial_aux d suf pre reg0 hhashes hids hnew hdup
  refine ⟨regF, heq, hhash, hget, ?_⟩
  have hlen : regF.hash_store.length = reg0.hash_store.length + pre.length := by
    rw [hhash]
    simp
  intro hpre hcontra
  rw [hcontra] at hlen
  have hzero : pre.length = 0 := by omega
  exact hpre (List.eq_nil_of_length_eq_zero hzero)

/-- C9 witness: from an empty registry, adding two fresh records followed
by a duplicate of the first raises the duplicate error while both earlier
records stay registered. -/
theorem c9_witness :
    ∃ regF, SequenceRegistry.empty.add_seqs
        [⟨"a", "n1", "gatc"⟩, ⟨"b", "n2", "ttaa"⟩, ⟨"c", "n1", "gatc"⟩] =
        (regF, some ("Duplicate sequence: name='" ++ "n1" ++ "'")) ∧
      regF.hash_store = SequenceRegistry.empty.hash_store ++
        [⟨"a", "n1", "gatc"⟩, ⟨"b", "n2", "ttaa"⟩].map hash_key ∧
      (∀ r ∈ [(⟨"a", "n1", "gatc"⟩ : SeqRecord), ⟨"b", "n2", "ttaa"⟩],
        regF.getSeq (id_function r) = .ok r) ∧
      ([(⟨"a", "n1", "gatc"⟩ : SeqRecord), ⟨"b", "n2", "ttaa"⟩] ≠ [] →
        regF ≠ SequenceRegistry.empty) :=
  c9_add_seqs_not_atomic SequenceRegistry.empty
    [⟨"a", "n1", "gatc"⟩, ⟨"b", "n2", "ttaa"⟩] ⟨"c", "n1", "gatc"⟩ []
    (by decide) (by decide) (by decide) (by decide)

/-- C10: two records with distinct `(name, sequence)` pairs but the same
derived external id both pass the duplicate-hash check; no error is
raised, and the later record silently replaces the earlier one in the id
index — `get` returns the most recently added record. -/
theorem c10_id_collision (r1 r2 : SeqRecord)
    (hhash : hash_key r1 ≠ hash_key r2) (hid : id_function r1 = id_function r2) :
    ∃ regF, SequenceRegistry.empty.add_seqs [r1, r2] = (regF, none) ∧
      regF.getSeq (id_function r1) = .ok r2 ∧ regF.getSeq (id_function r2) = .ok r2 := by
  have hne : hash_key r2 ≠ hash_key r1 := fun h => hhash h.symm
  refine ⟨⟨aupdate (aupdate [] (id_function r1) r1) (id_function r2) r2,
    [hash_key r1, hash_key r2]⟩, ?_, ?_, ?_⟩
  · simp [SequenceRegistry.add_seqs, SequenceRegistry.check_in_sequence,
      SequenceRegistry.empty, hne]
  · rw [hid]
    unfold SequenceRegistry.getSeq
    rw [alookup_aupdate_self]
  · unfold SequenceRegistry.getSeq
    rw [alookup_aupdate_self]

/-- C10 witness: records ("s7", "nA", "gatc") and ("s7", "nB", "ttaa")
share the id "s7" but have different hashes; both load without error and
`get "s7"` returns the second. -/
theorem c10_witness :
    ∃ regF, SequenceRegistry.empty.add_seqs
        [⟨"s7", "nA", "gatc"⟩, ⟨"s7", "nB", "ttaa"⟩] = (regF, none) ∧
      regF.getSeq (id_function ⟨"s7", "nA", "gatc"⟩) = .ok ⟨"s7", "nB", "ttaa"⟩ ∧
      regF.getSeq (id_function ⟨"s7", "nB", "ttaa"⟩) = .ok ⟨"s7", "nB", "ttaa"⟩ :=
  c10_id_collision ⟨"s7", "nA", "gatc"⟩ ⟨"s7", "nB", "ttaa"⟩ (by decide) (by decide)


/-! ### C6 -/

theorem make_clinical_data_ok_spec (cid : Nat) :
    ∀ (cls : List Clinical) (gen : UuidGen) (out : List ClinicalData) (gen' : UuidGen),
      make_clinical_data cid gen cls = .ok (out, gen') →
      ∃ rendered : List Values, mapE clinicalKwargs cls = .ok rendered ∧
        out.map ClinicalData.kwargs =
          rendered.filter (fun kvs => !kvs.all (fun p => p.2 = none)) ∧
        (∀ cd ∈ out, cd.case_id = cid) := by
  intro cls
  induction cls with
  | nil =>
    intro gen out gen' h
    simp only [make_clinical_data] at h
    cases h
    exact ⟨[], rfl, by simp, by simp⟩
  | cons cl rest ih =>
    intro gen out gen' h
    simp only [make_clinical_data, parse_one] at h
    cases hkw : clinicalKwargs cl with
    | error e =>
      simp only [hkw] at h
      cases h
    | ok kwargs =>
      by_cases hall : kwargs.all (fun p => p.2 = none) = true
      · simp only [hkw, if_pos hall] at h
        obtain ⟨rendered, hmE, hmap, hcid⟩ := ih _ _ _ h
        refine ⟨kwargs :: rendered, ?_, ?_, hcid⟩
        · simp only [mapE, hkw, hmE]
        · simp only [List.filter_cons, hall]
          simpa using hmap
      · simp only [hkw, if_neg hall, uuid4] at h
        split at h
        · cases h
        · rename_i pr hrec
          cases h
          obtain ⟨rendered, hmE, hmap, hcid⟩ := ih _ _ _ hrec
          refine ⟨kwargs :: rendered, ?_, ?_, ?_⟩
          · simp only [mapE, hkw, hmE]
          · simp only [List.filter_cons, List.map_cons]
            rw [if_pos (by simpa using hall)]
            simpa using hmap
          · intro cd hcd
            rcases List.mem_cons.mp hcd with hcd | hcd
            · subst hcd
              rfl
            · exact hcid cd hcd

theorem tx_data_ok_case_id {R : Type} (hashR : R → Int) (parseReg : FieldValue → R)
    (cid : Nat) (rreg : RegimenRegistry R) (gen : UuidGen) (cln : Clinical)
    {td : TreatmentData} {rreg' : RegimenRegistry R} {gen' : UuidGen}
    (h : tx_data hashR parseReg cid rreg gen cln = .ok (td, rreg', gen')) :
    td.case_id = cid := by
  unfold tx_data at h
  cases hge : get_enum_name (alookup cln.values "response").join with
  | error e =>
    simp only [hge] at h
    cases h
  | ok response =>
    simp only [hge] at h
    cases h
    rfl

theorem make_treatment_data_ok_spec {R : Type} (hashR : R → Int)
    (parseReg : FieldValue → R) (cid : Nat) :
    ∀ (cls : List Clinical) (rreg : RegimenRegistry R) (gen : UuidGen)
      (out : List TreatmentData) (rreg' : RegimenRegistry R) (gen' : UuidGen),
      make_treatment_data hashR parseReg cid rreg gen cls = .ok (out, rreg', gen') →
      out.length = cls.length ∧ ∀ td ∈ out, td.case_id = cid := by
  intro cls
  induction cls with
  | nil =>
    intro rreg gen out rreg' gen' h
    simp only [make_treatment_data] at h
    cases h
    exact ⟨rfl, by simp⟩
  | cons cl rest ih =>
    intro rreg gen out rreg' gen' h
    simp only [make_treatment_data] at h
    split at h
    · cases h
    · rename_i td0 rreg1 gen1 htx
      split at h
      · cases h
      · rename_i pr hrec
        cases h
        obtain ⟨hlen, hcid⟩ := ih _ _ _ _ _ hrec
        refine ⟨by simp [hlen], ?_⟩
        intro td htd
        rcases List.mem_cons.mp htd with htd | htd
        · subst htd
          exact tx_data_ok_case_id hashR parseReg cid rreg gen cl htx
        · exact hcid td htd

/-- C6: within one parsed case, the clinical-data construction emits no
entity for a visit whose (enum-rendered) clinical field values are all
null and exactly one entity, in visit order, for every other visit — the
emitted entities' keyword maps are precisely the rendered visit value maps
with the all-null ones filtered out; the treatment-data construction emits
exactly one entity per visit, regardless of nullness.  All emitted
entities reference the given case id. -/
theorem c6_clinical_and_treatment_entities {R : Type} (hashR : R → Int)
    (parseReg : FieldValue → R) (cid : Nat) (c : Case)
    (gen gen2 : UuidGen) (rreg : RegimenRegistry R) :
    (∀ out gen', make_clinical_data cid gen c.clinical = .ok (out, gen') →
      ∃ rendered : List Values, mapE clinicalKwargs c.clinical = .ok rendered ∧
        out.map ClinicalData.kwargs =
          rendered.filter (fun kvs => !kvs.all (fun p => p.2 = none)) ∧
        (∀ cd ∈ out, cd.case_id = cid)) ∧
    (∀ out rreg' gen',
      make_treatment_data hashR parseReg cid rreg gen2 c.clinical = .ok (out, rreg', gen') →
      out.length = c.clinical.length ∧ ∀ td ∈ out, td.case_id = cid) :=
  ⟨fun out gen' h => make_clinical_data_ok_spec cid c.clinical gen out gen' h,
   fun out rreg' gen' h =>
    make_treatment_data_ok_spec hashR parseReg cid c.clinical rreg gen2 out rreg' gen' h⟩



/-- C6 witness: a case with two visits — one with all clinical fields
null, one with a non-null "hiv" — yields exactly one clinical-data entity
(the null visit is dropped) and exactly two treatment-data entities. -/
theorem c6_witness :
    ∃ out gen' rendered,
      make_clinical_data 0 ⟨0⟩
        [⟨clinicalDataFields.map (fun f => (f, (none : Option FieldValue))), []⟩,
         ⟨aupdate (clinicalDataFields.map (fun f => (f, (none : Option FieldValue))))
            "hiv" (some (.bool true)), []⟩] = .ok (out, gen') ∧
      mapE clinicalKwargs
        [⟨clinicalDataFields.map (fun f => (f, (none : Option FieldValue))), []⟩,
         ⟨aupdate (clinicalDataFields.map (fun f => (f, (none : Option FieldValue))))
            "hiv" (some (.bool true)), []⟩] = .ok rendered ∧
      out.map ClinicalData.kwargs =
        rendered.filter (fun kvs => !kvs.all (fun p => p.2 = none)) ∧
      (∀ cd ∈ out, cd.case_id = 0) ∧
      ∃ tout rreg' tgen',
        make_treatment_data (fun r => (r : Int)) (fun _ => (0 : Int)) 0 ⟨[]⟩ ⟨0⟩
          [⟨clinicalDataFields.map (fun f => (f, (none : Option FieldValue))), []⟩,
           ⟨aupdate (clinicalDataFields.map (fun f => (f, (none : Option FieldValue))))
              "hiv" (some (.bool true)), []⟩] = .ok (tout, rreg', tgen') ∧
        tout.length =
          [(⟨clinicalDataFields.map (fun f => (f, (none : Option FieldValue))), []⟩ : Clinical),
           ⟨aupdate (clinicalDataFields.map (fun f => (f, (none : Option FieldValue))))
              "hiv" (some (.bool true)), []⟩].length ∧
        ∀ td ∈ tout, td.case_id = 0 := by
  have h1 : make_clinical_data 0 ⟨0⟩
      [⟨clinicalDataFields.map (fun f => (f, (none : Option FieldValue))), []⟩,
       ⟨aupdate (clinicalDataFields.map (fun f => (f, (none : Option FieldValue))))
          "hiv" (some (.bool true)), []⟩] =
      .ok ([⟨1, 0,
        aupdate (aupdate (aupdate (clinicalDataFields.map
            (fun f => (f, (none : Option FieldValue)))) "hiv" (some (.bool true)))
          "kind" none) "il28b" none⟩], ⟨2⟩) := by decide
  have h2 : make_treatment_data (fun r => (r : Int)) (fun _ => (0 : Int)) 0 ⟨[]⟩ ⟨0⟩
      [⟨clinicalDataFields.map (fun f => (f, (none : Option FieldValue))), []⟩,
       ⟨aupdate (clinicalDataFields.map (fun f => (f, (none : Option FieldValue))))
          "hiv" (some (.bool true)), []⟩] =
      .ok ([⟨0, 0, none, none, none, none, none, none, none⟩,
            ⟨1, 0, none, none, none, none, none, none, none⟩], ⟨[]⟩, ⟨2⟩) := by decide
  obtain ⟨rendered, ha, hb, hc⟩ :=
    (c6_clinical_and_treatment_entities (fun r => (r : Int)) (fun _ => (0 : Int)) 0
      ⟨[], [],
       [⟨clinicalDataFields.map (fun f => (f, (none : Option FieldValue))), []⟩,
        ⟨aupdate (clinicalDataFields.map (fun f => (f, (none : Option FieldValue))))
           "hiv" (some (.bool true)), []⟩]⟩ ⟨0⟩ ⟨0⟩ ⟨[]⟩).1 _ _ h1
  have hd :=
    (c6_clinical_and_treatment_entities (fun r => (r : Int)) (fun _ => (0 : Int)) 0
      ⟨[], [],
       [⟨clinicalDataFields.map (fun f => (f, (none : Option FieldValue))), []⟩,
        ⟨aupdate (clinicalDataFields.map (fun f => (f, (none : Option FieldValue))))
           "hiv" (some (.bool true)), []⟩]⟩ ⟨0⟩ ⟨0⟩ ⟨[]⟩).2 _ _ _ h2
  exact ⟨_, _, rendered, h1, ha, hb, hc, _, _, _, h2, hd.1, hd.2⟩


/-! ### C7 -/

theorem check_gt_and_subgt_ok {g : String} {sub : Option String}
    (hg : ¬ ((!GENOTYPES.contains g) = true))
    (hlen : ∀ s, sub = some s → ¬ (s.length > 1)) :
    check_gt_and_subgt g sub = .ok () := by
  unfold check_gt_and_subgt
  rw [if_neg hg]
  cases sub with
  | none => rfl
  | some s =>
    show (if s.length > 1 then Except.error ("Invalid subgenotype: " ++ s)
      else Except.ok ()) = Except.ok ()
    rw [if_neg (hlen s rfl)]

/-- C7: the alignment profile name is "hcv1b" for genotype "1" with
subgenotype "b"; "hcv1a" for genotype "1" with any other (valid) or absent
subgenotype; "hcv" followed by the genotype for any other valid genotype;
and for an invalid genotype or an over-long subgenotype the computation
fails with an error before the aligner is invoked — `make_entities`
returns that same error whatever aligner function and downstream
processing are supplied. -/
theorem c7_profile_name_spec :
    (profile_name "1" (some "b") = .ok "hcv1b") ∧
    (∀ sub : Option String, sub ≠ some "b" → (∀ s, sub = some s → s.length ≤ 1) →
      profile_name "1" sub = .ok "hcv1a") ∧
    (∀ g ∈ GENOTYPES, g ≠ "1" → ∀ sub : Option String,
      (∀ s, sub = some s → s.length ≤ 1) → profile_name g sub = .ok ("hcv" ++ g)) ∧
    (∀ (g : String) (sub : Option String),
      (g ∉ GENOTYPES ∨ ∃ s, sub = some s ∧ s.length > 1) →
      ∃ e, profile_name g sub = .error e ∧
        ∀ (A B : Type) (alignFn : String → String → List String → A) (k : A → B)
          (seq : String) (genes : List String),
          make_entities_profile alignFn k seq g sub genes = .error e) := by
  refine ⟨by decide, ?_, ?_, ?_⟩
  · intro sub hnb hlen
    have hcheck : check_gt_and_subgt "1" sub = .ok () :=
      check_gt_and_subgt_ok (by decide)
        (fun s hs => by have := hlen s hs; omega)
    unfold profile_name
    rw [hcheck]
    cases sub with
    | none => rw [if_pos rfl, if_neg (by simp)]
    | some s =>
      rw [if_pos rfl, if_neg hnb]
  · intro g hg hne sub hlen
    have hcheck : check_gt_and_subgt g sub = .ok () := by
      fin_cases hg <;>
        exact check_gt_and_subgt_ok (by decide)
          (fun s hs => by have := hlen s hs; omega)
    unfold profile_name
    rw [hcheck]
    rw [if_neg hne]
  · intro g sub hbad
    by_cases hg : (!GENOTYPES.contains g) = true
    · have hpn : profile_name g sub = .error ("Invalid Genotype: " ++ g) := by
        have hcheck : check_gt_and_subgt g sub = .error ("Invalid Genotype: " ++ g) := by
          unfold check_gt_and_subgt
          rw [if_pos hg]
        unfold profile_name
        rw [hcheck]
      exact ⟨_, hpn, fun A B alignFn k seq genes => by
        unfold make_entities_profile
        rw [hpn]⟩
    · rcases hbad with hbad | ⟨s, hsub, hlen⟩
      · exfalso
        apply hbad
        rw [← List.elem_iff]
        cases hc : GENOTYPES.contains g
        · rw [hc] at hg
          exact absurd rfl hg
        · exact hc
      · subst hsub
        have hcheck : check_gt_and_subgt g (some s) =
            .error ("Invalid subgenotype: " ++ s) := by
          unfold check_gt_and_subgt
          rw [if_neg hg]
          show (if s.length > 1 then Except.error ("Invalid subgenotype: " ++ s)
            else Except.ok ()) = Except.error ("Invalid subgenotype: " ++ s)
          rw [if_pos hlen]
        have hpn : profile_name g (some s) = .error ("Invalid subgenotype: " ++ s) := by
          unfold profile_name
          rw [hcheck]
        exact ⟨_, hpn, fun A B alignFn k seq genes => by
          unfold make_entities_profile
          rw [hpn]⟩

/-- C7 witness: the theorem applied at genotype "1" with subgenotype "b",
genotype "1" with no subgenotype, genotype "3" with subgenotype "a", and
the invalid genotype "7". -/
theorem c7_witness :
    profile_name "1" (some "b") = .ok "hcv1b" ∧
    profile_name "1" none = .ok "hcv1a" ∧
    profile_name "3" (some "a") = .ok ("hcv" ++ "3") ∧
    (∃ e, profile_name "7" none = .error e ∧
      ∀ (A B : Type) (alignFn : String → String → List String → A) (k : A → B)
        (seq : String) (genes : List String),
        make_entities_profile alignFn k seq "7" none genes = .error e) :=
  ⟨c7_profile_name_spec.1,
   c7_profile_name_spec.2.1 none (by simp) (fun s hs => by cases hs),
   c7_profile_name_spec.2.2.1 "3" (by decide) (by decide) (some "a")
     (fun s hs => by cases hs; decide),
   c7_profile_name_spec.2.2.2 "7" none (Or.inl (by decide))⟩


end Shrl
